/-
Verification of the SCiPnet wire-protocol layer and access-control engine
(CS50xFP), as a shallow embedding in Lean 4.

Conventions used throughout:
* Python strings are lists of Unicode code points (`List Nat`), because Python
  `str` admits every code point below 0x110000, including lone surrogates,
  which Lean `Char` cannot carry.
* Byte strings are also `List Nat`, each element below 256.
* JSON-serializable Python values (the message fragment: `str`, `int`, `list`,
  `dict`) are the mutual inductive `J` below.  `J` is mutual rather than
  nested so that every function on it is plain structural recursion and hence
  reduces inside the kernel, letting concrete runs be checked by `rfl`/`decide`.
* Fallible Python code is `Except PyErr`.  `PyErr` keeps the exception class
  and a short label, not the full message text.

Each definition's doc comment names the source construct it embeds
(file, symbol).  Definitions marked `Modelled from the spec:` embed code that
the repository references but does not contain.
-/
import Mathlib

set_option maxRecDepth 4000

namespace SCiPnet

/-- Python string as its list of Unicode code points. -/
abbrev PyStr := List Nat

/-- Code points of a Lean string literal, for writing concrete Python strings. -/
def pstr (s : String) : PyStr := s.data.map Char.toNat

/-- Python exception classes raised by the embedded code, with a short label
(field name or reason) in place of the formatted message text. -/
inductive PyErr where
  | typeError (label : String)
  | valueError (label : String)
  | maxSizeLimit (size : Nat)
  | connectionError (label : String)
  | connectionAborted
  | structError
  | keyError
  | indexError
deriving DecidableEq, Repr

mutual
/-- JSON-serializable Python value: the fragment exchanged by the protocol
(`str`, arbitrary-precision `int`, `list`, `dict` with `str` keys). -/
inductive J where
  | jstr (s : PyStr)
  | jint (n : Int)
  | jarr (l : JList)
  | jobj (l : JObj)

/-- List of JSON values (mutual with `J` so recursion stays structural). -/
inductive JList where
  | nil
  | cons (hd : J) (tl : JList)

/-- Association list of string keys to JSON values, standing for a Python dict
(in insertion order, as Python dicts preserve it). -/
inductive JObj where
  | nil
  | cons (key : PyStr) (val : J) (tl : JObj)
end

/-- Keys of an object, in order. -/
def JObj.keys : JObj → List PyStr
  | .nil => []
  | .cons k _ t => k :: t.keys

/-- Python dict lookup (first binding wins; Python dicts have unique keys). -/
def JObj.lookup : JObj → PyStr → Option J
  | .nil, _ => none
  | .cons k v t, key => if k = key then some v else t.lookup key

/-- Number of bindings, as Python `len()` on a dict. -/
def JObj.length : JObj → Nat
  | .nil => 0
  | .cons _ _ t => t.length + 1

/-- Number of elements, as Python `len()` on a list. -/
def JList.length : JList → Nat
  | .nil => 0
  | .cons _ t => t.length + 1

/-! ## Serialization: `json.dumps` with its default options
(`ensure_ascii=True`, separators `", "` and `": "`), as used by
`CS50xFP/utils/socket/helpers.py` `encode`. -/

/-- Lowercase hex digit character code, as `'%x'` formatting uses. -/
def hexDigitCp (d : Nat) : Nat := if d < 10 then 48 + d else 87 + d

/-- Four hex digit character codes of `n < 0x10000`, as `'\\u%04x'` formats. -/
def hex4 (n : Nat) : List Nat :=
  [hexDigitCp (n / 4096 % 16), hexDigitCp (n / 256 % 16),
   hexDigitCp (n / 16 % 16), hexDigitCp (n % 16)]

/-- JSON escaping of one code point under `ensure_ascii=True`: printable ASCII
other than quote and backslash is literal; quote, backslash and the five
C-escapes are two-character escapes; everything else becomes `\uXXXX`, with
code points above 0xFFFF split into a surrogate pair (json/encoder.py,
`py_encode_basestring_ascii`). -/
def escCp (c : Nat) : List Nat :=
  if c = 34 then [92, 34]
  else if c = 92 then [92, 92]
  else if 32 ≤ c ∧ c ≤ 126 then [c]
  else if c = 8 then [92, 98]
  else if c = 9 then [92, 116]
  else if c = 10 then [92, 110]
  else if c = 12 then [92, 102]
  else if c = 13 then [92, 114]
  else if c < 65536 then 92 :: 117 :: hex4 c
  else
    let r := c - 65536
    (92 :: 117 :: hex4 (55296 + r / 1024)) ++ (92 :: 117 :: hex4 (56320 + r % 1024))

/-- Escaped body of a string. -/
def escStr : PyStr → List Nat
  | [] => []
  | c :: t => escCp c ++ escStr t

/-- Rendered string: quote, escaped body, quote. -/
def dumpStr (s : PyStr) : List Nat := 34 :: (escStr s ++ [34])

/-- Decimal digit character codes of `n` (most significant first), prepended to
`acc`; fuelled so the definition is structural and kernel-reducible.  The fuel
`n + 1` of `natDec` always suffices. -/
def natDecA : Nat → Nat → List Nat → List Nat
  | 0, _, acc => acc
  | fuel + 1, n, acc =>
      if n < 10 then (48 + n % 10) :: acc
      else natDecA fuel (n / 10) ((48 + n % 10) :: acc)

/-- Decimal digit character codes of `n`, no leading zeros (`natDec 0 = "0"`). -/
def natDec (n : Nat) : List Nat := natDecA (n + 1) n []

/-- Rendered integer, as `json.dumps` writes an `int`. -/
def dumpInt (n : Int) : List Nat :=
  if n < 0 then 45 :: natDec n.natAbs else natDec n.natAbs

mutual
/-- Rendered JSON value (json.dumps, default separators). -/
def dumpVal : J → List Nat
  | .jstr s => dumpStr s
  | .jint n => dumpInt n
  | .jarr .nil => [91, 93]
  | .jarr (.cons v t) => 91 :: (dumpVal v ++ dumpElems t ++ [93])
  | .jobj .nil => [123, 125]
  | .jobj (.cons k v t) => 123 :: (dumpStr k ++ 58 :: 32 :: dumpVal v ++ dumpMembers t ++ [125])

/-- Remaining array elements, each preceded by `", "`. -/
def dumpElems : JList → List Nat
  | .nil => []
  | .cons v t => 44 :: 32 :: dumpVal v ++ dumpElems t

/-- Remaining object members, each preceded by `", "` and keyed `"k": v`. -/
def dumpMembers : JObj → List Nat
  | .nil => []
  | .cons k v t => 44 :: 32 :: dumpStr k ++ 58 :: 32 :: dumpVal v ++ dumpMembers t
end

/-! ## Parsing: the fragment of `json.loads` exercised by this protocol.

The embedded parser follows CPython's pure-Python scanner (`json/scanner.py`,
`json/decoder.py`) on the value fragment the protocol serializes: strings with
the full escape grammar (including `\uXXXX` and surrogate-pair recombination,
and rejecting raw control characters, `strict=True`), integers, arrays and
objects with interspersed JSON whitespace.  Floats (`.`/`e` continuations of a
number) and the constants `null`/`true`/`false`/`NaN`/`Infinity` are outside
the fragment: no value serialized by this protocol produces them, and every
theorem below applies `loads` either to `dumps` output or to inputs rejected
before a number is scanned. -/

/-- JSON whitespace, as CPython's scanner skips (`' \t\n\r'`). -/
def isWsCp (c : Nat) : Bool := c = 32 || c = 9 || c = 10 || c = 13

/-- Drop leading JSON whitespace. -/
def skipWs : List Nat → List Nat
  | [] => []
  | c :: t => if isWsCp c then skipWs t else c :: t

/-- ASCII decimal digit. -/
def isDigitCp (c : Nat) : Bool := 48 ≤ c && c ≤ 57

/-- Longest leading digit run and the remainder. -/
def takeDigits : List Nat → List Nat × List Nat
  | [] => ([], [])
  | c :: t =>
      if isDigitCp c then
        let (ds, r) := takeDigits t
        (c :: ds, r)
      else ([], c :: t)

/-- Value of a digit-code list, most significant first (as `int()` computes). -/
def digitsToNat (ds : List Nat) : Nat := ds.foldl (fun a d => a * 10 + (d - 48)) 0

/-- Value of one hex digit code, either case, as `_decode_uXXXX` accepts. -/
def hexVal (c : Nat) : Option Nat :=
  if 48 ≤ c ∧ c ≤ 57 then some (c - 48)
  else if 97 ≤ c ∧ c ≤ 102 then some (c - 87)
  else if 65 ≤ c ∧ c ≤ 70 then some (c - 55)
  else none

/-- Value of a four-hex-digit escape. -/
def hexQuad (a b c d : Nat) : Option Nat := do
  let va ← hexVal a
  let vb ← hexVal b
  let vc ← hexVal c
  let vd ← hexVal d
  return ((va * 16 + vb) * 16 + vc) * 16 + vd

/-- Lookahead after a high-surrogate `\uXXXX` escape (`py_scanstring`): `none`
when the input does not continue with `\u`; `some none` when it does but the
following four characters are not hex (an error); `some (some (u2, rest))`
with the decoded second escape otherwise. -/
def scanPair : List Nat → Option (Option (Nat × List Nat))
  | e1 :: e2 :: a2 :: b2 :: c2 :: d2 :: r2 =>
      if e1 = 92 ∧ e2 = 117 then
        some ((hexQuad a2 b2 c2 d2).map fun u2 => (u2, r2))
      else none
  | e1 :: e2 :: _ => if e1 = 92 ∧ e2 = 117 then some none else none
  | _ => none

/-- The name-escape table (`json/decoder.py` `BACKSLASH`). -/
def namedEsc (e : Nat) : Option Nat :=
  if e = 34 then some 34 else if e = 92 then some 92
  else if e = 47 then some 47 else if e = 98 then some 8
  else if e = 102 then some 12 else if e = 110 then some 10
  else if e = 114 then some 13 else if e = 116 then some 9
  else none

/-- Consequence of a scan step: prepend one code point to the rest of the scan. -/
def scanCons (c : Nat) : Except PyErr (PyStr × List Nat) → Except PyErr (PyStr × List Nat)
  | .ok (s, rest) => .ok (c :: s, rest)
  | .error e => .error e

/-- Body of a JSON string after the opening quote, per CPython `py_scanstring`
with `strict=True`: ends at an unescaped quote, expands the named escapes and
`\uXXXX` (recombining a high/low surrogate escape pair into one code point),
and rejects raw control characters below 0x20.  Fuelled for structural
recursion; one fuel unit consumes at least one input code point. -/
def scanStringA : Nat → List Nat → Except PyErr (PyStr × List Nat)
  | 0, _ => .error (.valueError "fuel")
  | _ + 1, [] => .error (.valueError "Unterminated string")
  | fuel + 1, c :: r =>
      if c = 34 then .ok ([], r)
      else if c = 92 then
        match r with
        | [] => .error (.valueError "Unterminated string")
        | e :: r2 =>
            if e = 117 then
              match r2 with
              | a :: b :: cc :: d :: r3 =>
                  match hexQuad a b cc d with
                  | none => .error (.valueError "Invalid uXXXX escape")
                  | some u =>
                      if 55296 ≤ u ∧ u ≤ 56319 then
                        match scanPair r3 with
                        | some (some (u2, r4)) =>
                            if 56320 ≤ u2 ∧ u2 ≤ 57343 then
                              scanCons (65536 + (u - 55296) * 1024 + (u2 - 56320))
                                (scanStringA fuel r4)
                            else scanCons u (scanStringA fuel r3)
                        | some none => .error (.valueError "Invalid uXXXX escape")
                        | none => scanCons u (scanStringA fuel r3)
                      else scanCons u (scanStringA fuel r3)
              | _ => .error (.valueError "Invalid uXXXX escape")
            else
              match namedEsc e with
              | some cp => scanCons cp (scanStringA fuel r2)
              | none => .error (.valueError "Invalid escape")
      else if c < 32 then .error (.valueError "Invalid control character")
      else scanCons c (scanStringA fuel r)

/-- String body scan with always-sufficient fuel (one fuel unit consumes at
least one input code point). -/
def scanString (r : List Nat) : Except PyErr (PyStr × List Nat) :=
  scanStringA (r.length + 1) r

/-- Integer literal: optional minus, then a nonempty digit run (the integer
part of CPython's `NUMBER_RE`; see the fragment note above). -/
def scanInt : List Nat → Except PyErr (Int × List Nat)
  | [] => .error (.valueError "Expecting value")
  | c :: r =>
      if c = 45 then
        let (ds, rest) := takeDigits r
        if ds.isEmpty then .error (.valueError "Expecting value")
        else .ok (-(digitsToNat ds : Int), rest)
      else
        let (ds, rest) := takeDigits (c :: r)
        if ds.isEmpty then .error (.valueError "Expecting value")
        else .ok ((digitsToNat ds : Int), rest)

mutual
/-- One JSON value; structural on `fuel`, which callers set to the input
length plus one (sufficient: every recursive step consumes input). -/
def parseVal : Nat → List Nat → Except PyErr (J × List Nat)
  | 0, _ => .error (.valueError "fuel")
  | fuel + 1, input =>
      match input with
      | [] => .error (.valueError "Expecting value")
      | c :: r =>
          if c = 34 then
            match scanString r with
            | .ok (s, rest) => .ok (.jstr s, rest)
            | .error e => .error e
          else if c = 91 then
            match skipWs r with
            | [] => .error (.valueError "Expecting value")
            | c2 :: r2 =>
                if c2 = 93 then .ok (.jarr .nil, r2)
                else
                  match parseElems fuel (c2 :: r2) with
                  | .ok (l, rest) => .ok (.jarr l, rest)
                  | .error e => .error e
          else if c = 123 then
            match skipWs r with
            | [] => .error (.valueError "Expecting property name")
            | c2 :: r2 =>
                if c2 = 125 then .ok (.jobj .nil, r2)
                else
                  match parseMembers fuel (c2 :: r2) with
                  | .ok (o, rest) => .ok (.jobj o, rest)
                  | .error e => .error e
          else if c = 45 || isDigitCp c then
            match scanInt (c :: r) with
            | .ok (n, rest) => .ok (.jint n, rest)
            | .error e => .error e
          else .error (.valueError "Expecting value")

/-- One or more comma-separated array elements up to the closing bracket. -/
def parseElems : Nat → List Nat → Except PyErr (JList × List Nat)
  | 0, _ => .error (.valueError "fuel")
  | fuel + 1, input =>
      match parseVal fuel input with
      | .error e => .error e
      | .ok (v, r) =>
          match skipWs r with
          | [] => .error (.valueError "Expecting delimiter")
          | c :: r2 =>
              if c = 44 then
                match parseElems fuel (skipWs r2) with
                | .ok (l, rest) => .ok (.cons v l, rest)
                | .error e => .error e
              else if c = 93 then .ok (.cons v .nil, r2)
              else .error (.valueError "Expecting delimiter")

/-- One or more comma-separated object members up to the closing brace. -/
def parseMembers : Nat → List Nat → Except PyErr (JObj × List Nat)
  | 0, _ => .error (.valueError "fuel")
  | fuel + 1, input =>
      match input with
      | [] => .error (.valueError "Expecting property name")
      | c :: r =>
          if c = 34 then
            match scanString r with
            | .error e => .error e
            | .ok (k, r1) =>
                match skipWs r1 with
                | [] => .error (.valueError "Expecting colon")
                | c2 :: r2 =>
                    if c2 = 58 then
                      match parseVal fuel (skipWs r2) with
                      | .error e => .error e
                      | .ok (v, r3) =>
                          match skipWs r3 with
                          | [] => .error (.valueError "Expecting delimiter")
                          | c3 :: r4 =>
                              if c3 = 44 then
                                match parseMembers fuel (skipWs r4) with
                                | .ok (o, rest) => .ok (.cons k v o, rest)
                                | .error e => .error e
                              else if c3 = 125 then .ok (.cons k v .nil, r4)
                              else .error (.valueError "Expecting delimiter")
                    else .error (.valueError "Expecting colon")
          else .error (.valueError "Expecting property name")
end

/-- Whole-document parse, as `json.loads`: skip whitespace, one value, then
only whitespace may remain. -/
def loads (s : List Nat) : Except PyErr J :=
  let s1 := skipWs s
  match parseVal (s1.length + 1) s1 with
  | .error e => .error e
  | .ok (v, rest) => if skipWs rest = [] then .ok v else .error (.valueError "Extra data")

/-! ## UTF-8 codec, as `str.encode()` / `bytes.decode()` (strict). -/

/-- UTF-8 bytes of one code point; surrogates are unencodable, as CPython's
strict UTF-8 encoder raises `UnicodeEncodeError` on them. -/
def utf8Cp (c : Nat) : Except PyErr (List Nat) :=
  if c < 128 then .ok [c]
  else if c < 2048 then .ok [192 + c / 64, 128 + c % 64]
  else if 55296 ≤ c ∧ c ≤ 57343 then .error (.valueError "surrogates not allowed")
  else if c < 65536 then .ok [224 + c / 4096, 128 + c / 64 % 64, 128 + c % 64]
  else if c < 1114112 then
    .ok [240 + c / 262144, 128 + c / 4096 % 64, 128 + c / 64 % 64, 128 + c % 64]
  else .error (.valueError "code point out of range")

/-- UTF-8 encoding of a string (`str.encode()`). -/
def utf8Encode : PyStr → Except PyErr (List Nat)
  | [] => .ok []
  | c :: t =>
      match utf8Cp c with
      | .error e => .error e
      | .ok b =>
          match utf8Encode t with
          | .error e => .error e
          | .ok r => .ok (b ++ r)

/-- Strict UTF-8 decoding (`bytes.decode()`): multi-byte sequences must be
well-formed, shortest-form, non-surrogate and at most 0x10FFFF; fuelled so the
definition is structural (input length plus one always suffices). -/
def utf8DecodeA : Nat → List Nat → Except PyErr PyStr
  | 0, _ => .error (.valueError "fuel")
  | _ + 1, [] => .ok []
  | fuel + 1, b :: t =>
      if b < 128 then
        match utf8DecodeA fuel t with
        | .ok s => .ok (b :: s)
        | .error e => .error e
      else if 194 ≤ b ∧ b ≤ 223 then
        match t with
        | b2 :: t2 =>
            if 128 ≤ b2 ∧ b2 ≤ 191 then
              match utf8DecodeA fuel t2 with
              | .ok s => .ok (((b - 192) * 64 + (b2 - 128)) :: s)
              | .error e => .error e
            else .error (.valueError "invalid continuation byte")
        | [] => .error (.valueError "unexpected end of data")
      else if 224 ≤ b ∧ b ≤ 239 then
        match t with
        | b2 :: b3 :: t3 =>
            if (128 ≤ b2 ∧ b2 ≤ 191) ∧ (128 ≤ b3 ∧ b3 ≤ 191) then
              let c := (b - 224) * 4096 + (b2 - 128) * 64 + (b3 - 128)
              if c < 2048 then .error (.valueError "overlong encoding")
              else if 55296 ≤ c ∧ c ≤ 57343 then .error (.valueError "surrogate")
              else
                match utf8DecodeA fuel t3 with
                | .ok s => .ok (c :: s)
                | .error e => .error e
            else .error (.valueError "invalid continuation byte")
        | _ => .error (.valueError "unexpected end of data")
      else if 240 ≤ b ∧ b ≤ 244 then
        match t with
        | b2 :: b3 :: b4 :: t4 =>
            if (128 ≤ b2 ∧ b2 ≤ 191) ∧ (128 ≤ b3 ∧ b3 ≤ 191) ∧ (128 ≤ b4 ∧ b4 ≤ 191) then
              let c := (b - 240) * 262144 + (b2 - 128) * 4096 + (b3 - 128) * 64 + (b4 - 128)
              if c < 65536 then .error (.valueError "overlong encoding")
              else if c > 1114111 then .error (.valueError "code point out of range")
              else
                match utf8DecodeA fuel t4 with
                | .ok s => .ok (c :: s)
                | .error e => .error e
            else .error (.valueError "invalid continuation byte")
        | _ => .error (.valueError "unexpected end of data")
      else .error (.valueError "invalid start byte")

/-- Strict UTF-8 decoding of a byte string. -/
def utf8Decode (b : List Nat) : Except PyErr PyStr := utf8DecodeA (b.length + 1) b

/-! ## Frame codec: `CS50xFP/utils/socket/helpers.py` `encode`/`decode`, and
the configuration constants of `utils/general/server_config.py` `Socket`. -/

/-- Maximum total message size in bytes: `Socket.MAX_MSG_S = (1024 ** 2) * 50`. -/
def MAX_MSG_S : Nat := 1024 * 1024 * 50

/-- Receive chunk size in bytes: `Socket.RCV_S = 1024 * 4`. -/
def RCV_S : Nat := 1024 * 4

/-- Length-header size in bytes: `Socket.HEADER_S = calcsize('!I') = 4`. -/
def HEADER_S : Nat := 4

/-- Default socket read timeout in seconds: `Socket.DEF_TIMEOUT`. -/
def DEF_TIMEOUT : Nat := 60

/-- Temporary probe timeout in seconds: `Socket.TMP_TIMEOUT`. -/
def TMP_TIMEOUT : Nat := 2

/-- Big-endian 4-byte encoding of `n < 2^32`, as `struct.pack('!I', n)`. -/
def pack4 (n : Nat) : List Nat :=
  [n / 16777216 % 256, n / 65536 % 256, n / 256 % 256, n % 256]

/-- Big-endian read of a 4-byte header, as `struct.unpack('!I', header)[0]`. -/
def unpack4 (b : List Nat) : Nat :=
  match b with
  | [b0, b1, b2, b3] => b0 * 16777216 + b1 * 65536 + b2 * 256 + b3
  | _ => 0

/-- Embedding of `validation.py` `validate_data`: rejects empty data; `len()`
of an `int` raises `TypeError` in Python, kept faithfully. -/
def validate_data : J → Except PyErr Unit
  | .jint _ => .error (.typeError "object of type int has no len")
  | .jstr [] => .error (.valueError "No data provided")
  | .jarr .nil => .error (.valueError "No data provided")
  | .jobj .nil => .error (.valueError "No data provided")
  | _ => .ok ()

/-- Embedding of `helpers.py` `encode`: `validate_data`, `json.dumps(...).encode()`,
4-byte big-endian length header (packed before the size check, so a payload of
2^32 bytes or more is a `struct.error`), then the 50 MiB limit on the total. -/
def encode (m : J) : Except PyErr (List Nat) := do
  validate_data m
  let payload ← utf8Encode (dumpVal m)
  if payload.length ≥ 4294967296 then .error .structError
  else
    let result := pack4 payload.length ++ payload
    if result.length > MAX_MSG_S then .error (.maxSizeLimit result.length)
    else .ok result

/-- Embedding of `helpers.py` `decode`: `data.decode()` then `json.loads`,
with decoding failures surfaced as `ValueError`. -/
def decode (b : List Nat) : Except PyErr J := do
  let s ← utf8Decode b
  loads s

/-! ## Message protocol: `CS50xFP/utils/socket/protocol.py`.

`MessageTypes` is the `StrEnum` of `protocol.py` as committed: seven members.
(`builders.py` and `actions.py` additionally reference
`MessageTypes.ACCESS_TYPE_FAIL`, which this enum does not define — see the
claims about `gen_access_type_fail`.) -/

/-- Values of the seven `MessageTypes` members of `protocol.py`. -/
def messageTypes : List PyStr :=
  [pstr "auth_request", pstr "auth_failed", pstr "auth_success",
   pstr "access_request", pstr "access_redacted", pstr "access_expunged",
   pstr "access_granted"]

/-- Expected value type of a schema entry.  `tInt`/`tStr` are the plain
`isinstance` checks against `int`/`str`.  `tGDict` is an annotation of
`dict[str, Any]`: `get_type_hints` hands `validate_field` the parameterized
generic itself, on which `isinstance` raises `TypeError` in Python, so no
value ever matches it.  `tDict` and `tListStr` appear only in schemas
modelled from the spec (a mapping, and a list of strings). -/
inductive PyTy where
  | tInt
  | tStr
  | tGDict
  | tDict
  | tListStr
deriving DecidableEq, Repr

/-- Every element of a `JList` is a string. -/
def JList.allStr : JList → Bool
  | .nil => true
  | .cons (.jstr _) t => t.allStr
  | .cons _ _ => false

/-- Runtime type check of one value against a schema entry (the `isinstance`
calls of `validation.py` `validate_field`; `tGDict` never matches, see
`PyTy`). -/
def tyMatches : PyTy → J → Bool
  | .tInt, .jint _ => true
  | .tStr, .jstr _ => true
  | .tGDict, _ => false
  | .tDict, .jobj _ => true
  | .tListStr, .jarr l => l.allStr
  | _, _ => false

/-- Payload schema: field name to expected type, in declaration order. -/
abbrev Schema := List (PyStr × PyTy)

/-- Payload schemas of `protocol.py` (`format_map` with the `Data` TypedDicts
as committed: note `AccessGrantedData` has the single key `file`). -/
def formatMap (t : PyStr) : Option Schema :=
  if t = pstr "auth_request" then
    some [(pstr "user_id", .tInt), (pstr "password", .tStr)]
  else if t = pstr "auth_failed" then
    some [(pstr "field", .tStr)]
  else if t = pstr "auth_success" then
    some [(pstr "user", .tGDict)]
  else if t = pstr "access_request" then
    some [(pstr "f_type", .tStr), (pstr "f_id", .tInt)]
  else if t = pstr "access_redacted" then
    some [(pstr "user_clear", .tStr), (pstr "user_hex", .tStr),
          (pstr "needed_clear", .tStr), (pstr "needed_hex", .tStr)]
  else if t = pstr "access_expunged" then
    some [(pstr "f_type", .tStr), (pstr "f_id", .tInt)]
  else if t = pstr "access_granted" then
    some [(pstr "file", .tGDict)]
  else none

/-! ## Structural validation: `CS50xFP/utils/general/validation.py`. -/

/-- Set equality of key lists, as `set(val_keys) != set(expected_keys)`
compares. -/
def keySetEq (a b : List PyStr) : Bool :=
  a.all (fun k => b.contains k) && b.all (fun k => a.contains k)

/-- Embedding of `validate_dict` without a format: the value must be a dict
(keys of a `JObj` are strings by construction, so the per-key `str` check of
the source always passes here). -/
def validate_dict_basic : J → Except PyErr Unit
  | .jobj _ => .ok ()
  | _ => .error (.typeError "dict expected")

/-- Per-entry value checks of `validate_dict`, in schema declaration order. -/
def checkSchema (o : JObj) : Schema → Except PyErr Unit
  | [] => .ok ()
  | (k, ty) :: rest =>
      match o.lookup k with
      | none => .error .keyError
      | some v => if tyMatches ty v then checkSchema o rest else .error (.typeError "value type")

/-- Embedding of `validate_dict` with a format: dict check, exact key-set
comparison against the schema, then per-entry type checks. -/
def validate_dict_fmt (v : J) (fmt : Schema) : Except PyErr Unit :=
  match v with
  | .jobj o =>
      if keySetEq o.keys (fmt.map Prod.fst) then checkSchema o fmt
      else .error (.valueError "keys mismatch")
  | _ => .error (.typeError "dict expected")

/-- Message key set, `protocol.py` `MESSAGE_KEYS`. -/
def MESSAGE_KEYS : List PyStr := [pstr "type", pstr "data"]

/-- Embedding of `validation.py` `validate_msg` (lines 253-295), faithful to
the source including line 293, which reads `validate_dict('msg', msg,
expected_format)`: the whole message dict — not `msg['data']` — is validated
against the payload schema of its type. -/
def validate_msg (m : J) : Except PyErr J :=
  match m with
  | .jobj o =>
      if keySetEq o.keys MESSAGE_KEYS then
        match o.lookup (pstr "type") with
        | some (.jstr t) =>
            if messageTypes.contains t then
              match formatMap t with
              | some fmt =>
                  match validate_dict_fmt m fmt with
                  | .ok _ => .ok m
                  | .error e => .error e
              | none => .error (.valueError "msg type format")
            else .error (.valueError "msg type member")
        | some _ => .error (.valueError "msg type member")
        | none => .error .keyError
      else .error (.valueError "message keys")
  | _ => .error (.typeError "message")

/-- Embedding of `validate_str`: a string that is nonempty and not whitespace
only.  `pyIsSpace` covers the whitespace code points of `str.isspace` that can
occur here (ASCII whitespace, the C1 separators, NEL and NBSP). -/
def pyIsSpace (c : Nat) : Bool :=
  c = 32 || (9 ≤ c && c ≤ 13) || (28 ≤ c && c ≤ 31) || c = 133 || c = 160

/-- Embedding of `validation.py` `validate_str`. -/
def validate_str (s : PyStr) : Except PyErr Unit :=
  if s.isEmpty || s.all pyIsSpace then .error (.valueError "non-empty str")
  else .ok ()

/-- ASCII hex digit, as the character class of `HEX_REGEX`. -/
def isHexCp (c : Nat) : Bool :=
  (48 ≤ c && c ≤ 57) || (97 ≤ c && c ≤ 102) || (65 ≤ c && c ≤ 70)

/-- Embedding of `validation.py` `validate_hex`: `validate_str`, then a full
match of `^#[0-9a-fA-F]{6}$`. -/
def validate_hex (s : PyStr) : Except PyErr Unit := do
  validate_str s
  match s with
  | 35 :: rest =>
      if rest.length = 6 ∧ rest.all isHexCp then .ok ()
      else .error (.valueError "hex colour")
  | _ => .error (.valueError "hex colour")

/-- Embedding of `validation.py` `validate_int` (the value is an `int` by
type here; the flag logic is the source's `if positive ... elif non_negative`). -/
def validate_int (v : Int) (nonNegative positive : Bool) : Except PyErr Unit :=
  if positive ∧ v ≤ 0 then .error (.valueError "positive int")
  else if nonNegative ∧ v < 0 then .error (.valueError "non-negative int")
  else .ok ()

/-! ## Message builders: `CS50xFP/utils/socket/builders.py` `gen_msg`. -/

/-- Message dict as `gen_msg` composes it. -/
def mkMsg (t : PyStr) (d : J) : J :=
  .jobj (.cons (pstr "type") (.jstr t) (.cons (pstr "data") d .nil))

/-- Embedding of `builders.py` `gen_msg`, parameterized by the member list and
format map so the committed protocol and the spec-modelled revision share one
definition: `validate_enum` against the members, format lookup, then
`validate_dict(data, format)`. -/
def gen_msg_with (members : List PyStr) (fmap : PyStr → Option Schema)
    (t : PyStr) (d : J) : Except PyErr J :=
  if members.contains t then
    match fmap t with
    | some fmt =>
        match validate_dict_fmt d fmt with
        | .ok _ => .ok (mkMsg t d)
        | .error e => .error e
    | none => .error (.valueError "no data TypedDict")
  else .error (.valueError "msg_type member")

/-- `gen_msg` over the committed protocol (`protocol.py`). -/
def gen_msg (t : PyStr) (d : J) : Except PyErr J :=
  gen_msg_with messageTypes formatMap t d

/-- Embedding of `builders.py` `gen_access_type_fail` against the committed
protocol: `validate_str(tried)`, then `gen_msg(MessageTypes.ACCESS_TYPE_FAIL,
...)`.  `protocol.py` defines no such member (in Python the attribute access
itself raises `AttributeError`; here the member check fails), so the call
errors for every input. -/
def gen_access_type_fail_src (tried : PyStr) : Except PyErr J := do
  validate_str tried
  gen_msg (pstr "access_type_fail")
    (.jobj (.cons (pstr "tried") (.jstr tried)
      (.cons (pstr "valid")
        (.jarr (.cons (.jstr (pstr "SCP")) (.cons (.jstr (pstr "MTF"))
          (.cons (.jstr (pstr "SITE")) (.cons (.jstr (pstr "USER")) .nil)))))
        .nil)))

/-! ## Transport: `CS50xFP/utils/socket/transport.py` `recv`.

The connection is modelled by a delivery oracle `Nat → List Nat`: call `i` of
`conn.recv(k)` yields the oracle's chunk `i` truncated to `k` code points
(the OS contract that a read returns at most the requested number of bytes);
an empty result models the peer closing. -/

/-- Outcome of the payload accumulation loop. -/
inductive LoopOut where
  | done (data : List Nat)
  | errChunks
  | errAborted
  | fuelOut
deriving DecidableEq, Repr

/-- Embedding of the `recv` payload loop (transport.py lines 102-122):
request `min(RCV_S, remaining)`, fail as connection-aborted on an empty read,
fail as connection-lost once `chunk_count` exceeds `msg_size // RCV_S + 1`.
Also records each request as `(requested, remaining)` pairs.  Fuelled for
structural recursion; `recv` passes fuel `msgSize / RCV_S + 3`, which the
chunk-count guard makes sufficient (`recv_loop_behaviour`). -/
def recvLoop : Nat → Nat → (Nat → List Nat) → Nat → Nat → List Nat →
    LoopOut × List (Nat × Nat)
  | 0, _, _, _, _, _ => (.fuelOut, [])
  | fuel + 1, msgSize, delivery, callIdx, chunkCount, data =>
      if data.length < msgSize then
        if chunkCount > msgSize / RCV_S + 1 then (.errChunks, [])
        else
          let remaining := msgSize - data.length
          let req := min RCV_S remaining
          let buff := (delivery callIdx).take req
          if buff.isEmpty then (.errAborted, [(req, remaining)])
          else
            let out := recvLoop fuel msgSize delivery (callIdx + 1) (chunkCount + 1) (data ++ buff)
            (out.1, (req, remaining) :: out.2)
      else (.done data, [])

/-- Embedding of `transport.py` `recv` (lines 57-126): read and check the
4-byte header, unpack the length, enforce the size limit, run the payload
loop, then decode and validate.  The final source line passes two arguments to
the one-parameter `validate_msg` (`validate_msg(decoded, Message)`), which in
Python raises `TypeError` before `validate_msg` runs; the model charitably
drops the stray argument — and `recv` still fails on every message, because
`validate_msg` itself rejects every message (see `validate_msg`). -/
def recv (delivery : Nat → List Nat) : Except PyErr J :=
  let header := (delivery 0).take HEADER_S
  if header.isEmpty ∨ header.length ≠ HEADER_S then
    .error (.connectionError "incomplete size header")
  else
    let msgSize := unpack4 header
    if msgSize > MAX_MSG_S then .error (.maxSizeLimit msgSize)
    else
      match recvLoop (msgSize / RCV_S + 3) msgSize delivery 1 0 [] with
      | (.done data, _) =>
          match decode data with
          | .ok decoded => validate_msg decoded
          | .error e => .error e
      | (.errChunks, _) => .error (.connectionError "Exceeded expected message chunks")
      | (.errAborted, _) => .error .connectionAborted
      | (.fuelOut, _) => .error (.connectionError "unreachable")

end SCiPnet

namespace SCiPnet

/-! ## Access-control engine: `CS50xFP/utils/server/actions.py` `access`.

`actions.py` imports, from `.protocol`, names a newer protocol revision
defines — `AccessTypeFailData` and the `AccessGrantedSCPData` family — that
the committed `protocol.py` does not contain (only their callers are in the
repository).  Those schemas, the `ACCESS_TYPE_FAIL` member they accompany and
the absent `validate_ip` are modelled from the spec below and marked as such;
everything else in this section embeds `actions.py` and `builders.py` as
committed. -/

/-- Modelled from the spec: member list of the protocol revision `builders.py`
and `actions.py` are written against, the closed enumeration of §3 including
`ACCESS_TYPE_FAIL` (absent from the committed `protocol.py`). -/
def messageTypesEng : List PyStr := messageTypes ++ [pstr "access_type_fail"]

/-- Modelled from the spec: the payload schemas of §4.2 for the two entries the
committed `format_map` lacks or contradicts — `ACCESS_TYPE_FAIL` is
`tried: str, valid: list-of-str`, and `ACCESS_GRANTED` is `f_type: str,
f_model: serialized-record, files: map` (`files` is checked as a mapping, per
the spec's structural-validation wording).  All other entries are the
committed ones. -/
def formatMapEng (t : PyStr) : Option Schema :=
  if t = pstr "access_type_fail" then
    some [(pstr "tried", .tStr), (pstr "valid", .tListStr)]
  else if t = pstr "access_granted" then
    some [(pstr "f_type", .tStr), (pstr "f_model", .tStr), (pstr "files", .tDict)]
  else formatMap t

/-- `gen_msg` over the spec-modelled protocol revision. -/
def gen_msg_eng (t : PyStr) (d : J) : Except PyErr J :=
  gen_msg_with messageTypesEng formatMapEng t d

/-- Valid file types, the keys of `server_config.py` `Server.VALID_F_TYPES`
in declaration order. -/
def VALID_F_TYPES : List PyStr := [pstr "SCP", pstr "MTF", pstr "SITE", pstr "USER"]

/-- Record-store table selected by a file type (the model classes of
`VALID_F_TYPES`). -/
inductive FTag where
  | scpT
  | mtfT
  | siteT
  | usrT
deriving DecidableEq, Repr

/-- Embedding of `Server.VALID_F_TYPES.get(f_type)` (exact match; `actions.py`
does not upcase). -/
def lookupFType (t : PyStr) : Option FTag :=
  if t = pstr "SCP" then some .scpT
  else if t = pstr "MTF" then some .mtfT
  else if t = pstr "SITE" then some .siteT
  else if t = pstr "USER" then some .usrT
  else none

/-- An `id`/`name` pair, as the Pydantic `IDandName` submodel (used for
`clearance_lvl`, whose `name` is the displayed clearance string). -/
structure IDName where
  id : Int
  name : PyStr
deriving DecidableEq, Repr

/-- The requesting user, with the fields `access` reads: `id`,
`clearance_lvl`, `site_id`.  `display_clearance` is the computed property
`clearance_lvl.name` (transformers/models.py). -/
structure UserM where
  id : Int
  clearance_lvl : IDName
  site_id : Int
deriving DecidableEq, Repr

/-- A fetched record, by table, with the fields the clearance gate reads
(`clearance_lvl` for SCP and User records, `id` for Site records). -/
inductive RecordM where
  | scp (id : Int) (clearance_lvl : IDName)
  | mtf (id : Int)
  | site (id : Int)
  | usr (id : Int) (clearance_lvl : IDName)
deriving DecidableEq, Repr

/-- Record id, for the success log line. -/
def RecordM.rid : RecordM → Int
  | .scp i _ => i
  | .mtf i => i
  | .site i => i
  | .usr i _ => i

/-- The external record store (spec §6): `session.get(model_class, f_id)`,
absent records as `none`. -/
abbrev Store := FTag → Int → Option RecordM

/-- The external text/file store (spec §6): `read_file` returns the blob text
or the `[DATA EXPUNGED]` placeholder — a value either way — and `read_files`
on the addenda directory returns a name-to-text mapping. -/
structure FileStore where
  read : String → PyStr
  addenda : JObj

/-- Stand-in for Pydantic `model_dump_json()`: a concrete JSON text for the
record (the access decision only requires it to be a string). -/
def modelDumpJson (r : RecordM) : PyStr :=
  dumpVal (.jobj (.cons (pstr "id") (.jint r.rid) .nil))

/-- Clearance-level rendering colours, `display_config.py` `Styles.CLEAR_LVL`
(index is the clearance level; index 0 is the empty string). -/
def CLEAR_LVL : List PyStr :=
  [pstr "", pstr "#009F6B", pstr "#0087BD", pstr "#FFD300",
   pstr "#FF6D00", pstr "#C40233", pstr "#850005"]

/-- Python list indexing with an `int`: negative indices wrap from the end,
out-of-range raises `IndexError`. -/
def pyIndex (l : List PyStr) (i : Int) : Except PyErr PyStr :=
  if 0 ≤ i ∧ i < l.length then .ok (l.getD i.toNat [])
  else if -(l.length : Int) ≤ i ∧ i < 0 then .ok (l.getD (l.length - (-i).toNat) [])
  else .error .indexError

/-- Modelled from the spec: `validate_ip`, imported by `actions.py` from
`utils/general/validation.py` but absent from it; validates the requester IP
(modelled as the IPv4 dotted-quad check of the repository's
`ipaddress.ip_address`-based validator in `utils/sql/schema/main.py`). -/
def validate_ip (ip : PyStr) : Except PyErr Unit :=
  let isOctet : List Nat → Bool := fun ds =>
    ds ≠ [] ∧ ds.length ≤ 3 ∧ ds.all isDigitCp ∧ digitsToNat ds ≤ 255
      ∧ (ds.length > 1 → ds.headD 0 ≠ 48)
  let parts := ip.splitOn 46
  if parts.length = 4 ∧ parts.all isOctet then .ok ()
  else .error (.valueError "invalid IP address")

/-- Embedding of `builders.py` `gen_access_redacted` over the engine protocol:
`validate_str`/`validate_hex` on the four fields, then `gen_msg`. -/
def gen_access_redacted (userClear userHex neededClear neededHex : PyStr) :
    Except PyErr J := do
  validate_str userClear
  validate_hex userHex
  validate_str neededClear
  validate_hex neededHex
  gen_msg_eng (pstr "access_redacted")
    (.jobj (.cons (pstr "user_clear") (.jstr userClear)
      (.cons (pstr "user_hex") (.jstr userHex)
        (.cons (pstr "needed_clear") (.jstr neededClear)
          (.cons (pstr "needed_hex") (.jstr neededHex) .nil)))))

/-- Embedding of `builders.py` `gen_access_expunged`: `validate_str(f_type)`,
`validate_int(f_id)` with its positivity default, then `gen_msg`. -/
def gen_access_expunged (fType : PyStr) (fId : Int) : Except PyErr J := do
  validate_str fType
  validate_int fId true true
  gen_msg_eng (pstr "access_expunged")
    (.jobj (.cons (pstr "f_type") (.jstr fType) (.cons (pstr "f_id") (.jint fId) .nil)))

/-- Embedding of `builders.py` `gen_access_type_fail` over the engine
protocol: `validate_str(tried)`, then `gen_msg` with the `VALID_F_TYPES` key
list as `valid`. -/
def gen_access_type_fail (tried : PyStr) : Except PyErr J := do
  validate_str tried
  gen_msg_eng (pstr "access_type_fail")
    (.jobj (.cons (pstr "tried") (.jstr tried)
      (.cons (pstr "valid")
        (.jarr (.cons (.jstr (pstr "SCP")) (.cons (.jstr (pstr "MTF"))
          (.cons (.jstr (pstr "SITE")) (.cons (.jstr (pstr "USER")) .nil)))))
        .nil)))

/-- Embedding of `builders.py` `gen_access_granted`: `validate_dict(data)`,
then `gen_msg`. -/
def gen_access_granted (d : J) : Except PyErr J := do
  validate_dict_basic d
  gen_msg_eng (pstr "access_granted") d

/-- The `files` payload gathered for a record (actions.py lines 125-170):
description, containment procedures and addenda for an SCP; mission for an
MTF; location, description and dossier for a Site; nothing for a User. -/
def gatherFiles (fs : FileStore) : RecordM → J
  | .scp _ _ =>
      .jobj (.cons (pstr "desc") (.jstr (fs.read "desc.md"))
        (.cons (pstr "cps") (.jstr (fs.read "cps.md"))
          (.cons (pstr "addenda") (.jobj fs.addenda) .nil)))
  | .mtf _ =>
      .jobj (.cons (pstr "mission") (.jstr (fs.read "mission.md")) .nil)
  | .site _ =>
      .jobj (.cons (pstr "loc") (.jstr (fs.read "loc.md"))
        (.cons (pstr "desc") (.jstr (fs.read "desc.md"))
          (.cons (pstr "dossier") (.jstr (fs.read "dossier.md")) .nil)))
  | .usr _ _ => .jobj .nil

/-- The `f_type` literal the granted payload carries (actions.py writes the
constant for the matched branch). -/
def grantedTypeName : RecordM → PyStr
  | .scp _ _ => pstr "SCP"
  | .mtf _ => pstr "MTF"
  | .site _ => pstr "SITE"
  | .usr _ _ => pstr "USER"

/-- The ACCESS_GRANTED payload `actions.py` assembles for a record. -/
def grantedData (fs : FileStore) (r : RecordM) : J :=
  .jobj (.cons (pstr "f_type") (.jstr (grantedTypeName r))
    (.cons (pstr "f_model") (.jstr (modelDumpJson r))
      (.cons (pstr "files") (gatherFiles fs r) .nil)))

/-- Embedding of `actions.py` `access` (lines 33-179).  Inputs beyond the
request: the requesting user, the record store, the file store, and the name
of clearance level 3 as the record store returns it for the Site gate
(`get_field(ClearanceLvl, 'name', 'id', 3)`).  The audit-log calls are pure
side effects on the append-only log and do not alter the returned message, so
they are not represented in the return value. -/
def access (fType : PyStr) (fId : Int) (user : UserM) (userIp : PyStr)
    (store : Store) (fs : FileStore) (clearName3 : PyStr) : Except PyErr J := do
  -- validate_f_type(f_type) returns a Bool the source discards (no raise)
  validate_int fId false false
  -- validate_field('user', user, PydanticModels.User): satisfied by typing
  validate_ip userIp
  match lookupFType fType with
  | none => gen_access_type_fail fType
  | some tag =>
    match store tag fId with
    | none => gen_access_expunged fType fId
    | some fModel =>
      match fModel with
      | .scp _ rClear | .usr _ rClear =>
          if user.clearance_lvl.id < rClear.id then do
            let userHex ← pyIndex CLEAR_LVL user.clearance_lvl.id
            let neededHex ← pyIndex CLEAR_LVL rClear.id
            gen_access_redacted user.clearance_lvl.name userHex rClear.name neededHex
          else gen_access_granted (grantedData fs fModel)
      | .site sId =>
          if user.clearance_lvl.id < 3 ∧ user.site_id ≠ sId then do
            let userHex ← pyIndex CLEAR_LVL user.clearance_lvl.id
            let neededHex ← pyIndex CLEAR_LVL 3
            gen_access_redacted user.clearance_lvl.name userHex clearName3 neededHex
          else gen_access_granted (grantedData fs fModel)
      | .mtf _ =>
          -- MTFs are accessible to all authenticated users
          gen_access_granted (grantedData fs fModel)

/-! ## Scoped timeout override: `CS50xFP/utils/socket/helpers.py`
`socket_context_manager`, `gen_socket_conn`, `test_send`, `test_recv`. -/

/-- Socket state: the read timeout in seconds (`conn.settimeout`). -/
structure Sock where
  timeout : Nat
deriving DecidableEq, Repr

/-- Embedding of `gen_socket_conn`: a fresh socket carries the default
timeout. -/
def gen_socket_conn : Sock := { timeout := DEF_TIMEOUT }

/-- Network oracle for one probe operation: whether `sendall` succeeds, and
what `conn.recv` returns. -/
structure NetOracle where
  sendOk : Bool
  recvData : List Nat
deriving DecidableEq, Repr

/-- Non-connection errors are wrapped in `ConnectionError` by the context
manager (its default `reraise=ConnectionError`). -/
def wrapConnErr (e : PyErr) : PyErr :=
  match e with
  | .connectionError l => .connectionError l
  | .connectionAborted => .connectionAborted
  | _ => .connectionError "wrapped"

/-- Embedding of `socket_context_manager` with `short_timeout=True`: set the
temporary timeout, run the body, and in the `finally` block set the timeout to
`DEF_TIMEOUT` — on the success and the exception path alike. -/
def with_short_timeout (body : Sock → Except PyErr Unit × Sock) (s : Sock) :
    Except PyErr Unit × Sock :=
  let s1 : Sock := { s with timeout := TMP_TIMEOUT }
  let out := body s1
  let r : Except PyErr Unit :=
    match out.1 with
    | .ok a => .ok a
    | .error e => .error (wrapConnErr e)
  (r, { out.2 with timeout := DEF_TIMEOUT })

/-- Test message `Socket.TEST_MSG`. -/
def TEST_MSG : List Nat := [1, 2, 3, 4]

/-- Acknowledgement message `Socket.ACK_MSG`. -/
def ACK_MSG : List Nat := [4, 3, 2, 1]

/-- Embedding of `helpers.py` `test_send`: under the scoped timeout override,
send `TEST_MSG` and expect `ACK_MSG` back. -/
def test_send (o : NetOracle) (s : Sock) : Except PyErr Unit × Sock :=
  with_short_timeout
    (fun s1 =>
      if o.sendOk then
        if o.recvData.take 4 = ACK_MSG then (.ok (), s1)
        else (.error (.connectionError "did not receive ACK"), s1)
      else (.error (.connectionError "send failed"), s1))
    s

/-- Embedding of `helpers.py` `test_recv`: under the scoped timeout override,
expect `TEST_MSG` and acknowledge with `ACK_MSG`. -/
def test_recv (o : NetOracle) (s : Sock) : Except PyErr Unit × Sock :=
  with_short_timeout
    (fun s1 =>
      if o.recvData.take 4 = TEST_MSG then
        if o.sendOk then (.ok (), s1)
        else (.error (.connectionError "send failed"), s1)
      else (.error (.connectionError "did not receive TEST_MSG"), s1))
    s

end SCiPnet

namespace SCiPnet

/-! ## Well-formedness and size measures used by the round-trip theorems. -/

/-- Well-formed code point of Python text destined for the wire: below
0x110000 and not a surrogate.  (Python `str` can carry lone surrogates, but
`json.loads` recombines adjacent surrogate escapes, so only surrogate-free
text round-trips; every string produced by decoding well-formed UTF-8 is
surrogate-free.) -/
def wfCp (c : Nat) : Bool := c < 1114112 && !(55296 ≤ c && c ≤ 57343)

/-- Well-formed string: every code point well-formed. -/
def wfStr (s : PyStr) : Bool := s.all wfCp

mutual
/-- Well-formed value: all strings well-formed, all dict key lists duplicate
free (a Python dict cannot hold duplicate keys). -/
def wfJ : J → Bool
  | .jstr s => wfStr s
  | .jint _ => true
  | .jarr l => wfL l
  | .jobj o => wfO o

/-- Well-formedness of a value list. -/
def wfL : JList → Bool
  | .nil => true
  | .cons v t => wfJ v && wfL t

/-- Well-formedness of an object: keys well-formed and fresh, values
well-formed. -/
def wfO : JObj → Bool
  | .nil => true
  | .cons k v t => wfStr k && !(t.keys.contains k) && wfJ v && wfO t
end

mutual
/-- Structural size of a value, a lower bound on parser fuel. -/
def jsize : J → Nat
  | .jstr _ => 1
  | .jint _ => 1
  | .jarr l => 1 + jsizeL l
  | .jobj o => 1 + jsizeO o

/-- Summed size of a value list (one per cons, plus element sizes). -/
def jsizeL : JList → Nat
  | .nil => 0
  | .cons v t => 1 + jsize v + jsizeL t

/-- Summed size of an object (one per member, plus value sizes). -/
def jsizeO : JObj → Nat
  | .nil => 0
  | .cons _ v t => 1 + jsize v + jsizeO t
end

/-- Value check of a dict against a schema, as a Boolean: exact key set and
matching entry types. -/
def schemaMatches (d : J) (fmt : Schema) : Bool :=
  match d with
  | .jobj o =>
      keySetEq o.keys (fmt.map Prod.fst)
        && fmt.all fun e =>
             match o.lookup e.1 with
             | some v => tyMatches e.2 v
             | none => false
  | _ => false

/-- Modelled from the spec: the §4.2 payload schema table, used to state which
messages are `valid` (the schema entries written `serialized-record` and
`map(...)` are mappings, and `list-of-str` a list of strings). -/
def specFormatMap (t : PyStr) : Option Schema :=
  if t = pstr "auth_success" then some [(pstr "user", .tDict)]
  else formatMapEng t

/-- Modelled from the spec: a structurally valid message (§3 invariant and the
§4.2 table): exactly the keys `type` and `data`, a recognized type, and a
payload with exactly the schema's keys and value types. -/
def specValidMsg (m : J) : Bool :=
  match m with
  | .jobj o =>
      keySetEq o.keys MESSAGE_KEYS
        && (match o.lookup (pstr "type") with
            | some (.jstr t) =>
                (messageTypesEng.contains t)
                  && (match specFormatMap t, o.lookup (pstr "data") with
                      | some fmt, some d => schemaMatches d fmt
                      | _, _ => false)
            | _ => false)
  | _ => false

/-! ## Concrete data for witnesses and counterexamples. -/

/-- A schema-valid `auth_failed` message. -/
def wMsg : J := mkMsg (pstr "auth_failed")
  (.jobj (.cons (pstr "field") (.jstr (pstr "password")) .nil))

/-- The frame bytes `encode wMsg` produces (header plus payload). -/
def wFrame : List Nat := (encode wMsg).toOption.getD []

/-- Delivery oracle presenting `wFrame` as one header read then one payload
read, then a closed connection. -/
def wDelivery (i : Nat) : List Nat :=
  if i = 0 then wFrame.take 4 else if i = 1 then wFrame.drop 4 else []

/-- A requesting user: id 5, clearance level 2, assigned to site 19. -/
def wUser : UserM := ⟨5, ⟨2, pstr "Level 2 - Restricted"⟩, 19⟩

/-- A record store holding SCP 999 at clearance 4, site 19 and MTF 7. -/
def wStore : Store := fun tag fid =>
  if tag = .scpT ∧ fid = 999 then some (.scp 999 ⟨4, pstr "Level 4 - Secret"⟩)
  else if tag = .usrT ∧ fid = 5 then some (.usr 5 ⟨2, pstr "Level 2 - Restricted"⟩)
  else if tag = .siteT ∧ fid = 19 then some (.site 19)
  else if tag = .mtfT ∧ fid = 7 then some (.mtf 7)
  else none

/-- A file store whose every blob is the expunged placeholder. -/
def wFs : FileStore := ⟨fun _ => pstr "[DATA EXPUNGED]", .nil⟩

/-- A requester IP. -/
def wIp : PyStr := pstr "127.0.0.1"

/-- The stored name of clearance level 3. -/
def wClearName3 : PyStr := pstr "Level 3 - Confidential"

/-- Type tag of a built message, for stating outcome kinds. -/
def msgTypeOf : Except PyErr J → Option PyStr
  | .ok (.jobj (.cons _ (.jstr t) _)) => some t
  | _ => none

end SCiPnet

namespace SCiPnet

/-! # Theorems

Helper lemmas first (decimal digits, escapes, UTF-8, parser inversion), then
one theorem per claim, each with its witness or counterexample. -/

/-! ## Decimal digits -/

theorem natDecA_eq (n : Nat) : ∀ (fuel : Nat) (acc : List Nat), n < fuel →
    natDecA fuel n acc = natDec n ++ acc := by
  induction n using Nat.strongRecOn with
  | ind n ih =>
    intro fuel acc hf
    match fuel with
    | f + 1 =>
      by_cases h : n < 10
      · simp [natDecA, natDec, h]
      · have h1 : n / 10 < n := Nat.div_lt_self (by omega) (by omega)
        simp only [natDecA, if_neg h]
        rw [ih (n / 10) h1 f ((48 + n % 10) :: acc) (by omega)]
        conv_rhs => rw [natDec]
        simp only [natDecA, if_neg h]
        rw [ih (n / 10) h1 n ((48 + n % 10) :: []) (by omega)]
        simp

theorem natDec_small {n : Nat} (h : n < 10) : natDec n = [48 + n] := by
  simp [natDec, natDecA, h, Nat.mod_eq_of_lt h]

theorem natDec_step {n : Nat} (h : ¬ n < 10) :
    natDec n = natDec (n / 10) ++ [48 + n % 10] := by
  have h1 : n / 10 < n := Nat.div_lt_self (by omega) (by omega)
  conv_lhs => rw [natDec]
  simp only [natDecA, if_neg h]
  rw [natDecA_eq (n / 10) n ((48 + n % 10) :: []) (by omega)]

theorem natDec_ne_nil (n : Nat) : natDec n ≠ [] := by
  by_cases h : n < 10
  · simp [natDec_small h]
  · simp [natDec_step h]

theorem natDec_digits (n : Nat) : ∀ c ∈ natDec n, isDigitCp c = true := by
  induction n using Nat.strongRecOn with
  | ind n ih =>
    by_cases h : n < 10
    · rw [natDec_small h]
      intro c hc
      simp at hc
      simp [isDigitCp, hc]
      omega
    · rw [natDec_step h]
      intro c hc
      rw [List.mem_append] at hc
      rcases hc with hc | hc
      · exact ih (n / 10) (Nat.div_lt_self (by omega) (by omega)) c hc
      · simp at hc
        have : n % 10 < 10 := Nat.mod_lt _ (by omega)
        simp [isDigitCp, hc]
        omega

theorem digitsToNat_append_one (ds : List Nat) (d : Nat) :
    digitsToNat (ds ++ [d]) = digitsToNat ds * 10 + (d - 48) := by
  simp [digitsToNat]

theorem digitsToNat_natDec (n : Nat) : digitsToNat (natDec n) = n := by
  induction n using Nat.strongRecOn with
  | ind n ih =>
    by_cases h : n < 10
    · rw [natDec_small h]
      simp [digitsToNat]
    · rw [natDec_step h, digitsToNat_append_one,
          ih (n / 10) (Nat.div_lt_self (by omega) (by omega))]
      omega

/-! ## Digit runs -/

theorem takeDigits_exact (ds : List Nat) (rest : List Nat)
    (hds : ∀ c ∈ ds, isDigitCp c = true)
    (hrest : isDigitCp (rest.headD 0) = false) :
    takeDigits (ds ++ rest) = (ds, rest) := by
  induction ds with
  | nil =>
      simp only [List.nil_append]
      match rest with
      | [] => rfl
      | c :: t =>
          simp only [List.headD_cons] at hrest
          simp [takeDigits, hrest]
  | cons c t ih =>
      have hc : isDigitCp c = true := hds c (by simp)
      have ht := ih (fun x hx => hds x (by simp [hx]))
      simp [takeDigits, hc, ht]

theorem scanInt_dumpInt (n : Int) (rest : List Nat)
    (hrest : isDigitCp (rest.headD 0) = false) :
    scanInt (dumpInt n ++ rest) = .ok (n, rest) := by
  by_cases hn : n < 0
  · have : dumpInt n ++ rest = 45 :: (natDec n.natAbs ++ rest) := by
      simp [dumpInt, hn]
    rw [this]
    simp only [scanInt, if_pos rfl]
    rw [takeDigits_exact _ _ (natDec_digits _) hrest]
    simp [natDec_ne_nil, digitsToNat_natDec]
    rw [abs_of_neg hn, neg_neg]
  · obtain ⟨c0, t0, h0⟩ : ∃ c0 t0, natDec n.natAbs = c0 :: t0 := by
      match h : natDec n.natAbs with
      | [] => exact absurd h (natDec_ne_nil _)
      | c :: t => exact ⟨c, t, rfl⟩
    have hmem : c0 ∈ natDec n.natAbs := by
      rw [h0]
      exact List.mem_cons_self _ _
    have hc0 : isDigitCp c0 = true := natDec_digits _ c0 hmem
    have hne45 : ¬ c0 = 45 := by
      intro he
      rw [he] at hc0
      simp [isDigitCp] at hc0
    have : dumpInt n ++ rest = c0 :: (t0 ++ rest) := by
      simp [dumpInt, hn, h0]
    rw [this]
    simp only [scanInt, if_neg hne45]
    have htd : takeDigits (c0 :: (t0 ++ rest)) = (c0 :: t0, rest) := by
      have := takeDigits_exact (c0 :: t0) rest (h0 ▸ natDec_digits n.natAbs) hrest
      exact this
    rw [htd]
    have hdv : digitsToNat (c0 :: t0) = n.natAbs := h0 ▸ digitsToNat_natDec n.natAbs
    simp [hdv]
    omega

end SCiPnet

namespace SCiPnet

/-! ## Hex digits and string escapes -/

theorem hexVal_hexDigitCp (d : Nat) (h : d < 16) : hexVal (hexDigitCp d) = some d := by
  interval_cases d <;> rfl

theorem hexQuad_hex4 (n : Nat) (h : n < 65536) :
    hexQuad (hexDigitCp (n / 4096 % 16)) (hexDigitCp (n / 256 % 16))
      (hexDigitCp (n / 16 % 16)) (hexDigitCp (n % 16)) = some n := by
  have e1 := hexVal_hexDigitCp (n / 4096 % 16) (Nat.mod_lt _ (by omega))
  have e2 := hexVal_hexDigitCp (n / 256 % 16) (Nat.mod_lt _ (by omega))
  have e3 := hexVal_hexDigitCp (n / 16 % 16) (Nat.mod_lt _ (by omega))
  have e4 := hexVal_hexDigitCp (n % 16) (Nat.mod_lt _ (by omega))
  simp [hexQuad, e1, e2, e3, e4]
  omega

theorem scanPair_hex4 (m : Nat) (hm : m < 65536) (X : List Nat) :
    scanPair (92 :: 117 :: (hex4 m ++ X)) = some (some (m, X)) := by
  simp only [hex4, List.cons_append, List.nil_append, scanPair]
  rw [hexQuad_hex4 m hm]
  simp

theorem scanStringA_u_step (f u : Nat) (hu : u < 65536) (R : List Nat) :
    scanStringA (f + 1) ((92 :: 117 :: hex4 u) ++ R) =
      (if 55296 ≤ u ∧ u ≤ 56319 then
        match scanPair R with
        | some (some (u2, r4)) =>
            if 56320 ≤ u2 ∧ u2 ≤ 57343 then
              scanCons (65536 + (u - 55296) * 1024 + (u2 - 56320)) (scanStringA f r4)
            else scanCons u (scanStringA f R)
        | some none => .error (.valueError "Invalid uXXXX escape")
        | none => scanCons u (scanStringA f R)
      else scanCons u (scanStringA f R)) := by
  simp only [hex4, List.cons_append, List.nil_append, scanStringA]
  norm_num
  rw [hexQuad_hex4 u hu]

theorem scanStringA_step (c : Nat) (X : List Nat) (f : Nat) (hc : wfCp c = true) :
    scanStringA (f + 1) (escCp c ++ X) = scanCons c (scanStringA f X) := by
  have hcb : c < 1114112 ∧ ¬(55296 ≤ c ∧ c ≤ 57343) := by
    simp [wfCp] at hc
    omega
  by_cases h1 : c = 34
  · subst h1
    simp [escCp, scanStringA, namedEsc, scanCons]
  by_cases h2 : c = 92
  · subst h2
    simp [escCp, scanStringA, namedEsc, scanCons]
  by_cases h3 : 32 ≤ c ∧ c ≤ 126
  · have he : escCp c = [c] := by
      simp [escCp, h1, h2, h3]
    rw [he]
    simp only [List.cons_append, List.nil_append, scanStringA, if_neg h1, if_neg h2,
               if_neg (by omega : ¬ c < 32)]
    rfl
  by_cases h4 : c = 8
  · subst h4
    simp [escCp, scanStringA, namedEsc, scanCons]
  by_cases h5 : c = 9
  · subst h5
    simp [escCp, scanStringA, namedEsc, scanCons]
  by_cases h6 : c = 10
  · subst h6
    simp [escCp, scanStringA, namedEsc, scanCons]
  by_cases h7 : c = 12
  · subst h7
    simp [escCp, scanStringA, namedEsc, scanCons]
  by_cases h8 : c = 13
  · subst h8
    simp [escCp, scanStringA, namedEsc, scanCons]
  by_cases h9 : c < 65536
  · have he : escCp c ++ X = (92 :: 117 :: hex4 c) ++ X := by
      simp [escCp, h1, h2, h3, h4, h5, h6, h7, h8, h9]
    rw [he, scanStringA_u_step f c h9 X]
    simp only [if_neg (show ¬(55296 ≤ c ∧ c ≤ 56319) by omega)]
  · -- astral plane: a surrogate escape pair
    have hhi : (c - 65536) / 1024 ≤ 1023 := by omega
    have hlo : (c - 65536) % 1024 ≤ 1023 := by
      have := Nat.mod_lt (c - 65536) (show 0 < 1024 by omega)
      omega
    have hdm := Nat.div_add_mod (c - 65536) 1024
    have he : escCp c ++ X = (92 :: 117 :: hex4 (55296 + (c - 65536) / 1024))
        ++ ((92 :: 117 :: hex4 (56320 + (c - 65536) % 1024)) ++ X) := by
      simp only [escCp, if_neg h1, if_neg h2, if_neg h3, if_neg h4, if_neg h5,
                 if_neg h6, if_neg h7, if_neg h8, if_neg (by omega : ¬ c < 65536)]
      simp
    rw [he, scanStringA_u_step f _ (by omega) _]
    simp only [if_pos (show 55296 ≤ 55296 + (c - 65536) / 1024
        ∧ 55296 + (c - 65536) / 1024 ≤ 56319 by omega)]
    rw [show (92 :: 117 :: hex4 (56320 + (c - 65536) % 1024)) ++ X
          = 92 :: 117 :: (hex4 (56320 + (c - 65536) % 1024) ++ X) from rfl,
        scanPair_hex4 _ (by omega)]
    simp only [if_pos (show 56320 ≤ 56320 + (c - 65536) % 1024
        ∧ 56320 + (c - 65536) % 1024 ≤ 57343 by omega)]
    have harith : 65536 + (55296 + (c - 65536) / 1024 - 55296) * 1024
        + (56320 + (c - 65536) % 1024 - 56320) = c := by omega
    rw [harith]

theorem escStr_length_ge (s : PyStr) : s.length ≤ (escStr s).length := by
  induction s with
  | nil => simp [escStr]
  | cons c t ih =>
      have : 1 ≤ (escCp c).length := by
        simp only [escCp]
        repeat' split
        all_goals simp [hex4]
      simp only [escStr, List.length_append, List.length_cons]
      omega

theorem scanStringA_escStr (s : PyStr) : ∀ (fuel : Nat) (rest : List Nat),
    wfStr s = true → s.length + 1 ≤ fuel →
    scanStringA fuel (escStr s ++ (34 :: rest)) = .ok (s, rest) := by
  induction s with
  | nil =>
      intro fuel rest _ hf
      match fuel, hf with
      | f + 1, _ => simp [escStr, scanStringA]
  | cons c t ih =>
      intro fuel rest hwf hf
      have hwfc : wfCp c = true := by
        simp [wfStr] at hwf
        exact hwf.1
      have hwft : wfStr t = true := by
        simp [wfStr] at hwf ⊢
        exact fun x hx => hwf.2 x hx
      match fuel, hf with
      | f + 1, hf2 =>
        rw [show escStr (c :: t) ++ (34 :: rest) = escCp c ++ (escStr t ++ (34 :: rest)) from by
              simp [escStr],
            scanStringA_step c _ f hwfc,
            ih f rest hwft (by simp at hf2; omega)]
        rfl

theorem scanString_dumpStr (s : PyStr) (rest : List Nat) (hwf : wfStr s = true) :
    scanString (escStr s ++ (34 :: rest)) = .ok (s, rest) := by
  rw [scanString]
  apply scanStringA_escStr s _ rest hwf
  have h1 := escStr_length_ge s
  simp
  omega

end SCiPnet

namespace SCiPnet

/-! ## ASCII facts: `dumps` output is pure ASCII (`ensure_ascii=True`) -/

theorem hexDigitCp_lt (d : Nat) (h : d < 16) : hexDigitCp d < 128 := by
  simp only [hexDigitCp]
  split <;> omega

theorem hex4_ascii (n : Nat) : ∀ x ∈ hex4 n, x < 128 := by
  intro x hx
  simp [hex4] at hx
  rcases hx with rfl | rfl | rfl | rfl <;>
    exact hexDigitCp_lt _ (Nat.mod_lt _ (by omega))

theorem escCp_ascii (c : Nat) : ∀ x ∈ escCp c, x < 128 := by
  intro x hx
  simp only [escCp] at hx
  repeat' split at hx
  all_goals
    first
      | (simp at hx; omega)
      | (simp at hx
         rcases hx with rfl | hx
         · omega
         rcases hx with rfl | hx
         · omega
         exact hex4_ascii _ _ hx)
      | (rw [List.mem_append] at hx
         rcases hx with hx | hx <;>
           (simp at hx
            rcases hx with rfl | hx
            · omega
            rcases hx with rfl | hx
            · omega
            exact hex4_ascii _ _ hx))

theorem escStr_ascii (s : PyStr) : ∀ x ∈ escStr s, x < 128 := by
  induction s with
  | nil => simp [escStr]
  | cons c t ih =>
      intro x hx
      simp only [escStr, List.mem_append] at hx
      rcases hx with hx | hx
      · exact escCp_ascii c x hx
      · exact ih x hx

theorem dumpStr_ascii (s : PyStr) : ∀ x ∈ dumpStr s, x < 128 := by
  intro x hx
  simp only [dumpStr, List.mem_cons, List.mem_append] at hx
  rcases hx with rfl | hx | hx
  · omega
  · exact escStr_ascii s x hx
  · simp at hx
    omega

theorem dumpInt_ascii (n : Int) : ∀ x ∈ dumpInt n, x < 128 := by
  intro x hx
  simp only [dumpInt] at hx
  have hdig : ∀ m : Nat, x ∈ natDec m → x < 128 := by
    intro m hm
    have := natDec_digits m x hm
    simp [isDigitCp] at this
    omega
  split at hx
  · simp at hx
    rcases hx with rfl | hx
    · omega
    · exact hdig _ hx
  · exact hdig _ hx

mutual
theorem dumpVal_ascii : ∀ (v : J), ∀ x ∈ dumpVal v, x < 128
  | .jstr s, x, hx => dumpStr_ascii s x hx
  | .jint n, x, hx => dumpInt_ascii n x hx
  | .jarr .nil, x, hx => by
      simp [dumpVal] at hx
      omega
  | .jarr (.cons v t), x, hx => by
      simp only [dumpVal, List.mem_cons, List.mem_append] at hx
      repeat' (rcases hx with hx | hx)
      all_goals
        first
          | omega
          | exact dumpVal_ascii v x (by assumption)
          | exact dumpElems_ascii t x (by assumption)
          | (rename_i h; simp at h; omega)
  | .jobj .nil, x, hx => by
      simp [dumpVal] at hx
      omega
  | .jobj (.cons k v t), x, hx => by
      simp only [dumpVal, List.mem_cons, List.mem_append] at hx
      repeat' (rcases hx with hx | hx)
      all_goals
        first
          | omega
          | exact dumpStr_ascii k x (by assumption)
          | exact dumpVal_ascii v x (by assumption)
          | exact dumpMembers_ascii t x (by assumption)
          | (rename_i h
             rcases List.mem_append.mp h with h2 | h2
             · exact escStr_ascii _ x h2
             · simp at h2
               omega)
          | (rename_i h; simp at h; omega)

theorem dumpElems_ascii : ∀ (l : JList), ∀ x ∈ dumpElems l, x < 128
  | .nil, x, hx => by simp [dumpElems] at hx
  | .cons v t, x, hx => by
      simp only [dumpElems, List.mem_cons, List.mem_append] at hx
      repeat' (rcases hx with hx | hx)
      all_goals
        first
          | omega
          | exact dumpVal_ascii v x (by assumption)
          | exact dumpElems_ascii t x (by assumption)
          | (rename_i h; simp at h; omega)

theorem dumpMembers_ascii : ∀ (o : JObj), ∀ x ∈ dumpMembers o, x < 128
  | .nil, x, hx => by simp [dumpMembers] at hx
  | .cons k v t, x, hx => by
      simp only [dumpMembers, List.mem_cons, List.mem_append] at hx
      repeat' (rcases hx with hx | hx)
      all_goals
        first
          | omega
          | exact dumpStr_ascii k x (by assumption)
          | exact dumpVal_ascii v x (by assumption)
          | exact dumpMembers_ascii t x (by assumption)
          | (rename_i h
             rcases List.mem_append.mp h with h2 | h2
             · exact escStr_ascii _ x h2
             · simp at h2
               omega)
          | (rename_i h; simp at h; omega)
end

/-! ## UTF-8 is the identity on ASCII -/

theorem utf8Cp_ascii (c : Nat) (h : c < 128) : utf8Cp c = .ok [c] := by
  simp [utf8Cp, h]

theorem utf8Encode_ascii (s : PyStr) (h : ∀ c ∈ s, c < 128) : utf8Encode s = .ok s := by
  induction s with
  | nil => rfl
  | cons c t ih =>
      have hc : c < 128 := h c (by simp)
      have ht : utf8Encode t = .ok t := ih fun x hx => h x (by simp [hx])
      simp [utf8Encode, utf8Cp_ascii c hc, ht]

theorem utf8DecodeA_ascii (s : List Nat) : ∀ fuel, s.length < fuel →
    (∀ c ∈ s, c < 128) → utf8DecodeA fuel s = .ok s := by
  induction s with
  | nil =>
      intro fuel hf _
      match fuel, hf with
      | f + 1, _ => rfl
  | cons b t ih =>
      intro fuel hf h
      match fuel, hf with
      | f + 1, hf2 =>
        have hb : b < 128 := h b (by simp)
        have ht := ih f (by simp at hf2; omega) fun x hx => h x (by simp [hx])
        simp [utf8DecodeA, hb, ht]

theorem utf8Decode_ascii (s : List Nat) (h : ∀ c ∈ s, c < 128) :
    utf8Decode s = .ok s :=
  utf8DecodeA_ascii s (s.length + 1) (by omega) h

/-! ## The first character of rendered output -/

theorem dumpVal_head (v : J) : ∃ c t, dumpVal v = c :: t ∧
    (c = 34 ∨ c = 45 ∨ isDigitCp c = true ∨ c = 91 ∨ c = 123) := by
  match v with
  | .jstr s => exact ⟨34, _, rfl, by simp⟩
  | .jint n =>
      by_cases hn : n < 0
      · refine ⟨45, natDec n.natAbs, ?_, by simp⟩
        simp [dumpVal, dumpInt, hn]
      · obtain ⟨c0, t0, h0⟩ : ∃ c0 t0, natDec n.natAbs = c0 :: t0 := by
          match h : natDec n.natAbs with
          | [] => exact absurd h (natDec_ne_nil _)
          | c :: t => exact ⟨c, t, rfl⟩
        have hd : isDigitCp c0 = true :=
          natDec_digits _ c0 (by rw [h0]; exact List.mem_cons_self _ _)
        refine ⟨c0, t0, ?_, by simp [hd]⟩
        simp [dumpVal, dumpInt, hn, h0]
  | .jarr .nil => exact ⟨91, _, rfl, by simp⟩
  | .jarr (.cons v t) => exact ⟨91, _, rfl, by simp⟩
  | .jobj .nil => exact ⟨123, _, rfl, by simp⟩
  | .jobj (.cons k v t) => exact ⟨123, _, rfl, by simp⟩

theorem skipWs_cons_not (c : Nat) (t : List Nat) (h : isWsCp c = false) :
    skipWs (c :: t) = c :: t := by
  simp [skipWs, h]

theorem head_start_not_ws {c : Nat}
    (h : c = 34 ∨ c = 45 ∨ isDigitCp c = true ∨ c = 91 ∨ c = 123) :
    isWsCp c = false := by
  simp [isDigitCp] at h
  simp [isWsCp]
  omega

theorem skipWs_dump (v : J) (X : List Nat) :
    skipWs (dumpVal v ++ X) = dumpVal v ++ X := by
  obtain ⟨c, t, he, hc⟩ := dumpVal_head v
  rw [he, List.cons_append]
  exact skipWs_cons_not _ _ (head_start_not_ws hc)

theorem skipWs_space (t : List Nat) : skipWs (32 :: t) = skipWs t := by
  simp [skipWs, isWsCp]

end SCiPnet

namespace SCiPnet

/-! ## Fuel lower bounds -/

mutual
theorem dumpVal_length_ge : ∀ v : J, jsize v ≤ (dumpVal v).length
  | .jstr s => by simp [dumpVal, dumpStr, jsize]
  | .jint n => by
      have h : dumpInt n ≠ [] := by
        simp only [dumpInt]
        split <;> simp [natDec_ne_nil]
      simp [dumpVal, jsize]
      cases he : dumpInt n with
      | nil => exact absurd he h
      | cons a t => simp
  | .jarr .nil => by simp [dumpVal, jsize, jsizeL]
  | .jarr (.cons v t) => by
      have h1 := dumpVal_length_ge v
      have h2 := dumpElems_length_ge t
      simp only [dumpVal, jsize, jsizeL, List.length_cons, List.length_append]
      omega
  | .jobj .nil => by simp [dumpVal, jsize, jsizeO]
  | .jobj (.cons k v t) => by
      have h1 := dumpVal_length_ge v
      have h2 := dumpMembers_length_ge t
      simp only [dumpVal, jsize, jsizeO, List.length_cons, List.length_append]
      omega

theorem dumpElems_length_ge : ∀ l : JList, jsizeL l ≤ (dumpElems l).length
  | .nil => by simp [dumpElems, jsizeL]
  | .cons v t => by
      have h1 := dumpVal_length_ge v
      have h2 := dumpElems_length_ge t
      simp only [dumpElems, jsizeL, List.length_cons, List.length_append]
      omega

theorem dumpMembers_length_ge : ∀ o : JObj, jsizeO o ≤ (dumpMembers o).length
  | .nil => by simp [dumpMembers, jsizeO]
  | .cons k v t => by
      have h1 := dumpVal_length_ge v
      have h2 := dumpMembers_length_ge t
      simp only [dumpMembers, jsizeO, List.length_cons, List.length_append]
      omega
end

theorem jsize_pos (v : J) : 1 ≤ jsize v := by
  match v with
  | .jstr _ => simp [jsize]
  | .jint _ => simp [jsize]
  | .jarr _ => simp [jsize]
  | .jobj _ => simp [jsize]

/-! ## The parser inverts the serializer -/

theorem dumpStr_cons (k : PyStr) (X : List Nat) :
    dumpStr k ++ X = 34 :: (escStr k ++ (34 :: X)) := by
  simp [dumpStr]

theorem headD_not_digit_elems (t : JList) (rest : List Nat) :
    isDigitCp ((dumpElems t ++ 93 :: rest).headD 0) = false := by
  cases t with
  | nil => simp [dumpElems, isDigitCp]
  | cons v t2 => simp [dumpElems, isDigitCp]

theorem headD_not_digit_members (t : JObj) (rest : List Nat) :
    isDigitCp ((dumpMembers t ++ 125 :: rest).headD 0) = false := by
  cases t with
  | nil => simp [dumpMembers, isDigitCp]
  | cons k v t2 => simp [dumpMembers, dumpStr, isDigitCp]

mutual
theorem parseVal_dump : ∀ (v : J) (rest : List Nat) (fuel : Nat),
    wfJ v = true → jsize v ≤ fuel → isDigitCp (rest.headD 0) = false →
    parseVal fuel (dumpVal v ++ rest) = .ok (v, rest)
  | .jstr s, rest, fuel, hwf, hfuel, _ => by
      match fuel, (by simp [jsize] at hfuel; omega : 1 ≤ fuel) with
      | f + 1, _ =>
        have hin : dumpVal (.jstr s) ++ rest = 34 :: (escStr s ++ (34 :: rest)) := by
          simp [dumpVal, dumpStr]
        rw [hin]
        simp only [parseVal]
        norm_num
        rw [scanString_dumpStr s rest (by simpa [wfJ] using hwf)]
  | .jint n, rest, fuel, _, hfuel, hrest => by
      match fuel, (by simp [jsize] at hfuel; omega : 1 ≤ fuel) with
      | f + 1, _ =>
        obtain ⟨c0, t0, h0, hc0⟩ :
            ∃ c0 t0, dumpInt n = c0 :: t0 ∧ (c0 = 45 ∨ isDigitCp c0 = true) := by
          by_cases hn : n < 0
          · exact ⟨45, natDec n.natAbs, by simp [dumpInt, hn], Or.inl rfl⟩
          · obtain ⟨c, t, h⟩ : ∃ c t, natDec n.natAbs = c :: t := by
              match h : natDec n.natAbs with
              | [] => exact absurd h (natDec_ne_nil _)
              | c :: t => exact ⟨c, t, rfl⟩
            refine ⟨c, t, by simp [dumpInt, hn, h], Or.inr ?_⟩
            exact natDec_digits _ c (by rw [h]; exact List.mem_cons_self _ _)
        have hin : dumpVal (.jint n) ++ rest = c0 :: (t0 ++ rest) := by
          simp [dumpVal, h0]
        have h34 : ¬ c0 = 34 := by
          rcases hc0 with h | h
          · omega
          · simp [isDigitCp] at h
            omega
        have h91 : ¬ c0 = 91 := by
          rcases hc0 with h | h
          · omega
          · simp [isDigitCp] at h
            omega
        have h123 : ¬ c0 = 123 := by
          rcases hc0 with h | h
          · omega
          · simp [isDigitCp] at h
            omega
        have hnum : (c0 = 45 || isDigitCp c0) = true := by
          rcases hc0 with h | h <;> simp [h]
        have hsc : scanInt (c0 :: (t0 ++ rest)) = .ok (n, rest) := by
          rw [show c0 :: (t0 ++ rest) = dumpInt n ++ rest from by simp [h0]]
          exact scanInt_dumpInt n rest hrest
        rw [hin]
        simp only [parseVal, if_neg h34, if_neg h91, if_neg h123, hnum, if_pos, hsc]
  | .jarr .nil, rest, fuel, _, hfuel, _ => by
      match fuel, (by simp [jsize] at hfuel; omega : 1 ≤ fuel) with
      | f + 1, _ =>
        have hin : dumpVal (.jarr .nil) ++ rest = 91 :: 93 :: rest := by
          simp [dumpVal]
        have hskip : skipWs (93 :: rest) = 93 :: rest :=
          skipWs_cons_not 93 rest (by simp [isWsCp])
        rw [hin]
        simp only [parseVal]
        norm_num
        rw [hskip]
        norm_num
  | .jarr (.cons v t), rest, fuel, hwf, hfuel, _ => by
      match fuel, (by have := jsize_pos (.jarr (.cons v t)); omega : 1 ≤ fuel) with
      | f + 1, _ =>
        have hwf2 : wfJ v = true ∧ wfL t = true := by
          simp [wfJ, wfL] at hwf
          exact hwf
        have hin : dumpVal (.jarr (.cons v t)) ++ rest
            = 91 :: (dumpVal v ++ (dumpElems t ++ 93 :: rest)) := by
          simp [dumpVal]
        obtain ⟨c, t1, he, hc⟩ := dumpVal_head v
        have hskip : skipWs (dumpVal v ++ (dumpElems t ++ 93 :: rest))
            = dumpVal v ++ (dumpElems t ++ 93 :: rest) := skipWs_dump v _
        have h93 : ¬ c = 93 := by
          rcases hc with h | h | h | h | h
          · omega
          · omega
          · simp [isDigitCp] at h
            omega
          · omega
          · omega
        have hpe := parseElems_dump v t rest f hwf2.1 hwf2.2
          (by simp [jsize] at hfuel; omega)
        rw [hin]
        simp only [parseVal]
        norm_num
        rw [hskip, he, List.cons_append]
        simp only [if_neg h93]
        rw [← List.cons_append, ← he, hpe]
  | .jobj .nil, rest, fuel, _, hfuel, _ => by
      match fuel, (by simp [jsize] at hfuel; omega : 1 ≤ fuel) with
      | f + 1, _ =>
        have hin : dumpVal (.jobj .nil) ++ rest = 123 :: 125 :: rest := by
          simp [dumpVal]
        have hskip : skipWs (125 :: rest) = 125 :: rest :=
          skipWs_cons_not 125 rest (by simp [isWsCp])
        rw [hin]
        simp only [parseVal]
        norm_num
        rw [hskip]
        norm_num
  | .jobj (.cons k v t), rest, fuel, hwf, hfuel, _ => by
      match fuel, (by have := jsize_pos (.jobj (.cons k v t)); omega : 1 ≤ fuel) with
      | f + 1, _ =>
        have hwf2 : wfStr k = true ∧ wfJ v = true ∧ wfO t = true := by
          simp [wfJ, wfO] at hwf
          tauto
        have hin : dumpVal (.jobj (.cons k v t)) ++ rest
            = 123 :: (dumpStr k ++ (58 :: 32 :: (dumpVal v
                ++ (dumpMembers t ++ 125 :: rest)))) := by
          simp [dumpVal]
        have hskip : skipWs (dumpStr k ++ (58 :: 32 :: (dumpVal v
              ++ (dumpMembers t ++ 125 :: rest))))
            = dumpStr k ++ (58 :: 32 :: (dumpVal v ++ (dumpMembers t ++ 125 :: rest))) := by
          rw [dumpStr_cons]
          exact skipWs_cons_not 34 _ (by simp [isWsCp])
        have hm := parseMembers_dump k v t rest f hwf2.1 hwf2.2.1 hwf2.2.2
          (by simp [jsize] at hfuel; omega)
        rw [hin]
        simp only [parseVal]
        norm_num
        rw [hskip, dumpStr_cons]
        norm_num
        rw [← dumpStr_cons, hm]

theorem parseElems_dump : ∀ (v : J) (t : JList) (rest : List Nat) (fuel : Nat),
    wfJ v = true → wfL t = true → jsizeL (.cons v t) ≤ fuel →
    parseElems fuel (dumpVal v ++ (dumpElems t ++ 93 :: rest)) = .ok (.cons v t, rest)
  | v, t, rest, fuel, hwfv, hwft, hfuel => by
      match fuel, (by simp [jsizeL] at hfuel; omega : 1 ≤ fuel) with
      | f + 1, _ =>
        have h1 := parseVal_dump v (dumpElems t ++ 93 :: rest) f hwfv
          (by simp [jsizeL] at hfuel; omega)
          (headD_not_digit_elems t rest)
        match t with
        | .nil =>
            have hd : dumpElems JList.nil ++ 93 :: rest = 93 :: rest := by
              simp [dumpElems]
            rw [hd] at h1
            have hskip : skipWs (93 :: rest) = 93 :: rest :=
              skipWs_cons_not 93 rest (by simp [isWsCp])
            simp only [parseElems, hd, h1]
            rw [hskip]
            norm_num
        | .cons v2 t2 =>
            have hd : dumpElems (JList.cons v2 t2) ++ 93 :: rest
                = 44 :: 32 :: (dumpVal v2 ++ (dumpElems t2 ++ 93 :: rest)) := by
              simp [dumpElems]
            rw [hd] at h1
            have hwf2 : wfJ v2 = true ∧ wfL t2 = true := by
              simp [wfL] at hwft
              exact hwft
            have hskip1 : skipWs (44 :: 32 :: (dumpVal v2 ++ (dumpElems t2 ++ 93 :: rest)))
                = 44 :: 32 :: (dumpVal v2 ++ (dumpElems t2 ++ 93 :: rest)) :=
              skipWs_cons_not 44 _ (by simp [isWsCp])
            have hskip2 : skipWs (32 :: (dumpVal v2 ++ (dumpElems t2 ++ 93 :: rest)))
                = dumpVal v2 ++ (dumpElems t2 ++ 93 :: rest) := by
              rw [skipWs_space]
              exact skipWs_dump v2 _
            have h2 := parseElems_dump v2 t2 rest f hwf2.1 hwf2.2
              (by simp [jsizeL] at hfuel ⊢; have := jsize_pos v; omega)
            simp only [parseElems, hd, h1]
            rw [hskip1]
            norm_num
            rw [hskip2, h2]

theorem parseMembers_dump : ∀ (k : PyStr) (v : J) (t : JObj) (rest : List Nat) (fuel : Nat),
    wfStr k = true → wfJ v = true → wfO t = true → jsizeO (.cons k v t) ≤ fuel →
    parseMembers fuel (dumpStr k ++ (58 :: 32 :: (dumpVal v ++ (dumpMembers t ++ 125 :: rest))))
      = .ok (.cons k v t, rest)
  | k, v, t, rest, fuel, hwfk, hwfv, hwft, hfuel => by
      match fuel, (by simp [jsizeO] at hfuel; omega : 1 ≤ fuel) with
      | f + 1, _ =>
        have hks := scanString_dumpStr k
          (58 :: 32 :: (dumpVal v ++ (dumpMembers t ++ 125 :: rest))) hwfk
        have hskip1 : skipWs (58 :: 32 :: (dumpVal v ++ (dumpMembers t ++ 125 :: rest)))
            = 58 :: 32 :: (dumpVal v ++ (dumpMembers t ++ 125 :: rest)) :=
          skipWs_cons_not 58 _ (by simp [isWsCp])
        have hskip2 : skipWs (32 :: (dumpVal v ++ (dumpMembers t ++ 125 :: rest)))
            = dumpVal v ++ (dumpMembers t ++ 125 :: rest) := by
          rw [skipWs_space]
          exact skipWs_dump v _
        have h1 := parseVal_dump v (dumpMembers t ++ 125 :: rest) f hwfv
          (by simp [jsizeO] at hfuel; omega)
          (headD_not_digit_members t rest)
        rw [dumpStr_cons]
        simp only [parseMembers]
        norm_num
        rw [hks]
        norm_num
        rw [hskip1]
        norm_num
        rw [hskip2, h1]
        norm_num
        match t with
        | .nil =>
            have hd : dumpMembers JObj.nil ++ 125 :: rest = 125 :: rest := by
              simp [dumpMembers]
            rw [hd, skipWs_cons_not 125 rest (by simp [isWsCp])]
            norm_num
        | .cons k2 v2 t2 =>
            have hd : dumpMembers (JObj.cons k2 v2 t2) ++ 125 :: rest
                = 44 :: 32 :: (dumpStr k2 ++ (58 :: 32 :: (dumpVal v2
                    ++ (dumpMembers t2 ++ 125 :: rest)))) := by
              simp [dumpMembers]
            have hwf2 : wfStr k2 = true ∧ wfJ v2 = true ∧ wfO t2 = true := by
              simp [wfO] at hwft
              tauto
            have hskip3 : skipWs (32 :: (dumpStr k2 ++ (58 :: 32 :: (dumpVal v2
                  ++ (dumpMembers t2 ++ 125 :: rest)))))
                = dumpStr k2 ++ (58 :: 32 :: (dumpVal v2
                  ++ (dumpMembers t2 ++ 125 :: rest))) := by
              rw [skipWs_space, dumpStr_cons]
              exact skipWs_cons_not 34 _ (by simp [isWsCp])
            have h2 := parseMembers_dump k2 v2 t2 rest f hwf2.1 hwf2.2.1 hwf2.2.2
              (by simp [jsizeO] at hfuel ⊢; have := jsize_pos v; omega)
            rw [hd, skipWs_cons_not 44 _ (by simp [isWsCp])]
            norm_num
            rw [hskip3, h2]
end

theorem loads_dumps (v : J) (hwf : wfJ v = true) : loads (dumpVal v) = .ok v := by
  rw [loads]
  have hskip : skipWs (dumpVal v) = dumpVal v := by
    have := skipWs_dump v []
    simpa using this
  rw [hskip]
  have hfuel : jsize v ≤ (dumpVal v).length + 1 := by
    have := dumpVal_length_ge v
    omega
  have hp := parseVal_dump v [] ((dumpVal v).length + 1) hwf hfuel (by simp [isDigitCp])
  simp only [List.append_nil] at hp
  rw [hp]
  simp [skipWs]

end SCiPnet

namespace SCiPnet

/-! ## Frame codec claims -/

theorem pack4_append_drop (n : Nat) (X : List Nat) : (pack4 n ++ X).drop 4 = X := by
  simp [pack4]

/-- C4 counterexample: the claim `decode(encode(m)) == m` fails as stated,
because `encode` prepends the 4-byte length header and `decode` does not strip
it: on the schema-valid message `wMsg`, `encode` succeeds but `decode` of its
output fails on the header bytes. -/
theorem c4_decode_encode_counterexample :
    encode wMsg = .ok wFrame
      ∧ decode wFrame = .error (.valueError "Expecting value") := by
  exact ⟨rfl, rfl⟩

/-- C4 (amended): for every structurally valid, well-formed message `m` on
which `encode` succeeds, the encoded frame is within the 50 MiB maximum
(`encode` raises first otherwise), and `decode` of the frame's payload — the
bytes after the 4-byte length header — returns `m` itself. -/
theorem c4_frame_codec_roundtrip (m : J) (hv : specValidMsg m = true)
    (hwf : wfJ m = true) (bs : List Nat) (henc : encode m = .ok bs) :
    bs.length ≤ MAX_MSG_S ∧ decode (bs.drop 4) = .ok m := by
  have hascii := dumpVal_ascii m
  have henc8 : utf8Encode (dumpVal m) = .ok (dumpVal m) := utf8Encode_ascii _ hascii
  obtain ⟨o, rfl⟩ : ∃ o, m = J.jobj o := by
    cases m with
    | jobj o => exact ⟨o, rfl⟩
    | jstr s => simp [specValidMsg] at hv
    | jint n => simp [specValidMsg] at hv
    | jarr l => simp [specValidMsg] at hv
  match o with
  | .nil => simp [specValidMsg, keySetEq, MESSAGE_KEYS, JObj.keys, pstr] at hv
  | .cons k v t =>
    simp only [encode, validate_data, henc8, Bind.bind, Except.bind] at henc
    split at henc
    · simp at henc
    · split at henc
      · simp at henc
      · rename_i hsmall hmax
        simp only [Except.ok.injEq] at henc
        subst henc
        constructor
        · simp only [not_lt] at hmax
          omega
        · rw [pack4_append_drop]
          simp only [decode, utf8Decode_ascii _ hascii, Bind.bind, Except.bind]
          exact loads_dumps _ hwf

/-- C4 witness: the amended round-trip at the concrete message `wMsg`. -/
theorem c4_frame_codec_roundtrip_witness :
    specValidMsg wMsg = true ∧ wfJ wMsg = true
      ∧ wFrame.length ≤ MAX_MSG_S ∧ decode (wFrame.drop 4) = .ok wMsg := by
  exact ⟨rfl, rfl, c4_frame_codec_roundtrip wMsg rfl rfl wFrame rfl⟩

/-! ## Transport and validation claims -/

/-- C1: `recv` never returns a message.  On a well-formed frame (correct
4-byte big-endian header, payload within the limit) whose payload decodes to
the schema-valid message `wMsg`, `recv` raises instead of returning it: the
source calls `validate_msg(decoded, Message)` — two arguments to a
one-parameter function, a `TypeError` in Python — and even the charitable
one-argument call, modelled here, fails because `validate_msg` (line 293)
validates the whole message dict against the payload schema. -/
theorem c1_recv_rejects_valid_frame :
    specValidMsg wMsg = true ∧ encode wMsg = .ok wFrame
      ∧ recv wDelivery = .error (.valueError "keys mismatch") := by
  exact ⟨rfl, rfl, rfl⟩

/-- C2: `validate_msg(gen_msg(t, d))` raises for every message type `t` and
every payload `d` on which `gen_msg` succeeds — not only schema-conformant
ones: line 293 of `validation.py` compares the message's key set
`{type, data}` against the payload schema keys, which never coincide. -/
theorem c2_validate_msg_rejects_gen_msg (t : PyStr) (d : J) (m : J)
    (h : gen_msg t d = .ok m) :
    validate_msg m = .error (.valueError "keys mismatch") := by
  simp only [gen_msg, gen_msg_with] at h
  split at h
  · rename_i hmem
    split at h
    · rename_i fmt hfmt
      split at h
      · simp only [Except.ok.injEq] at h
        subst h
        have hm : t ∈ messageTypes := List.mem_of_elem_eq_true hmem
        simp only [messageTypes, List.mem_cons, List.not_mem_nil, or_false] at hm
        rcases hm with rfl | rfl | rfl | rfl | rfl | rfl | rfl <;> rfl
      · simp at h
    · simp at h
  · simp at h

/-- C2 witness: the rejection at a concrete schema-conformant payload. -/
theorem c2_validate_msg_rejects_gen_msg_witness :
    validate_msg wMsg = .error (.valueError "keys mismatch") :=
  c2_validate_msg_rejects_gen_msg (pstr "auth_failed")
    (.jobj (.cons (pstr "field") (.jstr (pstr "password")) .nil)) wMsg rfl

/-- Helper for C8: if some schema entry's value is missing or has the wrong
runtime type, the per-entry checks fail. -/
theorem checkSchema_err (fmt : Schema) (o : JObj)
    (h : ∃ e ∈ fmt, ∀ v, o.lookup e.1 = some v → tyMatches e.2 v = false) :
    ∃ err, checkSchema o fmt = .error err := by
  induction fmt with
  | nil =>
      obtain ⟨e, he, _⟩ := h
      exact absurd he (List.not_mem_nil e)
  | cons hd rest ih =>
      obtain ⟨k, ty⟩ := hd
      cases hlk : o.lookup k with
      | none => exact ⟨.keyError, by simp [checkSchema, hlk]⟩
      | some v =>
          by_cases hm : tyMatches ty v = true
          · obtain ⟨e, he, hbad⟩ := h
            rcases List.mem_cons.mp he with rfl | htail
            · rw [hbad v hlk] at hm
              simp at hm
            · obtain ⟨err, herr⟩ := ih ⟨e, htail, hbad⟩
              exact ⟨err, by simp [checkSchema, hlk, hm, herr]⟩
          · simp only [Bool.not_eq_true] at hm
            exact ⟨.typeError "value type", by simp [checkSchema, hlk, hm]⟩

/-- C8: `gen_msg(t, d)` raises whenever the payload's key set differs from the
schema for `t` (a missing or an extra key) or some schema key is bound to a
value whose runtime type does not match the schema entry. -/
theorem c8_gen_msg_rejects_bad_data (t : PyStr) (fmt : Schema) (o : JObj)
    (hfmt : formatMap t = some fmt)
    (hbad : ¬ keySetEq o.keys (fmt.map Prod.fst) = true
      ∨ ∃ e ∈ fmt, ∀ v, o.lookup e.1 = some v → tyMatches e.2 v = false) :
    ∃ err, gen_msg t (.jobj o) = .error err := by
  have hmem : messageTypes.contains t = true := by
    simp only [formatMap] at hfmt
    split_ifs at hfmt <;>
      first
        | (subst_vars; decide)
        | simp at hfmt
  simp only [gen_msg, gen_msg_with, hmem, if_pos, hfmt]
  rcases hbad with hkeys | hval
  · simp only [Bool.not_eq_true] at hkeys
    exact ⟨.valueError "keys mismatch", by simp [validate_dict_fmt, hkeys]⟩
  · by_cases hkeys : keySetEq o.keys (fmt.map Prod.fst) = true
    · obtain ⟨err, herr⟩ := checkSchema_err fmt o hval
      exact ⟨err, by simp [validate_dict_fmt, hkeys, herr]⟩
    · simp only [Bool.not_eq_true] at hkeys
      exact ⟨.valueError "keys mismatch", by simp [validate_dict_fmt, hkeys]⟩

/-- C8 witness: `f_id` given as a string in an `access_request` payload. -/
theorem c8_gen_msg_rejects_bad_data_witness :
    ∃ err, gen_msg (pstr "access_request")
      (.jobj (.cons (pstr "f_type") (.jstr (pstr "SCP"))
        (.cons (pstr "f_id") (.jstr (pstr "173")) .nil))) = .error err := by
  apply c8_gen_msg_rejects_bad_data (pstr "access_request")
      [(pstr "f_type", .tStr), (pstr "f_id", .tInt)] _ rfl
  refine Or.inr ⟨(pstr "f_id", .tInt), by decide, ?_⟩
  intro v hv
  have h2 : J.jstr (pstr "173") = v := by
    simpa [JObj.lookup, pstr] using hv
  subst h2
  rfl

/-- C3: the committed `protocol.py` enumeration has only seven members and no
`ACCESS_TYPE_FAIL`, although `builders.py` and `actions.py` require it; as a
result `gen_access_type_fail` cannot build a TYPE_FAIL message — on any
unknown file type it raises instead of returning the message with the valid
type list. -/
theorem c3_access_type_fail_missing :
    messageTypes.length = 7
      ∧ (pstr "access_type_fail") ∉ messageTypes
      ∧ gen_access_type_fail_src (pstr "XENO") = .error (.valueError "msg_type member") := by
  refine ⟨rfl, by decide, rfl⟩

end SCiPnet

namespace SCiPnet

/-! ## Access-control claims -/

theorem validate_int_ff (v : Int) : validate_int v false false = .ok () := rfl

theorem pyIndex_ok (l : List PyStr) (i : Int) (h0 : 0 ≤ i)
    (hl : i < (l.length : Int)) : pyIndex l i = .ok (l.getD i.toNat []) := by
  unfold pyIndex
  rw [if_pos ⟨h0, hl⟩]

theorem validate_hex_CLEAR (i : Nat) (h1 : 1 ≤ i) (h6 : i ≤ 6) :
    validate_hex (CLEAR_LVL.getD i []) = .ok () := by
  interval_cases i <;> rfl

theorem granted_builds (fs : FileStore) (r : RecordM) :
    gen_access_granted (grantedData fs r)
      = .ok (mkMsg (pstr "access_granted") (grantedData fs r)) := by
  cases r <;> rfl

theorem redacted_builds (uc uh nc nh : PyStr)
    (h1 : validate_str uc = .ok ()) (h2 : validate_hex uh = .ok ())
    (h3 : validate_str nc = .ok ()) (h4 : validate_hex nh = .ok ()) :
    gen_access_redacted uc uh nc nh
      = .ok (mkMsg (pstr "access_redacted")
          (.jobj (.cons (pstr "user_clear") (.jstr uc)
            (.cons (pstr "user_hex") (.jstr uh)
              (.cons (pstr "needed_clear") (.jstr nc)
                (.cons (pstr "needed_hex") (.jstr nh) .nil)))))) := by
  simp only [gen_access_redacted, h1, h2, h3, h4, Bind.bind, Except.bind]
  rfl

/-- C5: for an existing SCP or USER record with required clearance `R` and a
requester with clearance `C`, both in 1..6, `access` grants if and only if
`C ≥ R`, and otherwise returns ACCESS_REDACTED carrying both clearance names
and their display colours (`Styles.CLEAR_LVL`). -/
theorem c5_scp_usr_clearance_gate
    (fType : PyStr) (tag : FTag) (hft : lookupFType fType = some tag)
    (fId rid : Int) (rClear : IDName) (r : RecordM)
    (hr : (tag = .scpT ∧ r = .scp rid rClear) ∨ (tag = .usrT ∧ r = .usr rid rClear))
    (user : UserM) (userIp : PyStr) (store : Store) (fs : FileStore)
    (clearName3 : PyStr)
    (hrec : store tag fId = some r)
    (hip : validate_ip userIp = .ok ())
    (hC : 1 ≤ user.clearance_lvl.id ∧ user.clearance_lvl.id ≤ 6)
    (hR : 1 ≤ rClear.id ∧ rClear.id ≤ 6)
    (hn1 : validate_str user.clearance_lvl.name = .ok ())
    (hn2 : validate_str rClear.name = .ok ()) :
    (rClear.id ≤ user.clearance_lvl.id →
        access fType fId user userIp store fs clearName3
          = .ok (mkMsg (pstr "access_granted") (grantedData fs r)))
    ∧ (user.clearance_lvl.id < rClear.id →
        access fType fId user userIp store fs clearName3
          = .ok (mkMsg (pstr "access_redacted")
              (.jobj (.cons (pstr "user_clear") (.jstr user.clearance_lvl.name)
                (.cons (pstr "user_hex")
                    (.jstr (CLEAR_LVL.getD user.clearance_lvl.id.toNat []))
                  (.cons (pstr "needed_clear") (.jstr rClear.name)
                    (.cons (pstr "needed_hex")
                        (.jstr (CLEAR_LVL.getD rClear.id.toNat [])) .nil))))))) := by
  obtain ⟨hC1, hC6⟩ := hC
  obtain ⟨hR1, hR6⟩ := hR
  have hpx1 : pyIndex CLEAR_LVL user.clearance_lvl.id
      = .ok (CLEAR_LVL.getD user.clearance_lvl.id.toNat []) :=
    pyIndex_ok _ _ (by omega)
      (by rw [show (CLEAR_LVL.length : Int) = 7 from rfl]; omega)
  have hpx2 : pyIndex CLEAR_LVL rClear.id
      = .ok (CLEAR_LVL.getD rClear.id.toNat []) :=
    pyIndex_ok _ _ (by omega)
      (by rw [show (CLEAR_LVL.length : Int) = 7 from rfl]; omega)
  rcases hr with ⟨htag, hrr⟩ | ⟨htag, hrr⟩
  · subst htag; subst hrr
    simp only [access, validate_int_ff, hip, hft, hrec, Bind.bind, Except.bind]
    constructor
    · intro hge
      rw [if_neg (by omega : ¬ user.clearance_lvl.id < rClear.id)]
      exact granted_builds fs _
    · intro hlt
      rw [if_pos hlt]
      simp only [hpx1, hpx2, Bind.bind, Except.bind]
      exact redacted_builds _ _ _ _ hn1
        (validate_hex_CLEAR _ (by omega) (by omega)) hn2
        (validate_hex_CLEAR _ (by omega) (by omega))
  · subst htag; subst hrr
    simp only [access, validate_int_ff, hip, hft, hrec, Bind.bind, Except.bind]
    constructor
    · intro hge
      rw [if_neg (by omega : ¬ user.clearance_lvl.id < rClear.id)]
      exact granted_builds fs _
    · intro hlt
      rw [if_pos hlt]
      simp only [hpx1, hpx2, Bind.bind, Except.bind]
      exact redacted_builds _ _ _ _ hn1
        (validate_hex_CLEAR _ (by omega) (by omega)) hn2
        (validate_hex_CLEAR _ (by omega) (by omega))

/-- C5 witness: clearance-2 user, SCP 999 at clearance 4 — redacted with both
names and colours. -/
theorem c5_scp_usr_clearance_gate_witness :
    access (pstr "SCP") 999 wUser wIp wStore wFs wClearName3
      = .ok (mkMsg (pstr "access_redacted")
          (.jobj (.cons (pstr "user_clear") (.jstr (pstr "Level 2 - Restricted"))
            (.cons (pstr "user_hex") (.jstr (pstr "#0087BD"))
              (.cons (pstr "needed_clear") (.jstr (pstr "Level 4 - Secret"))
                (.cons (pstr "needed_hex") (.jstr (pstr "#FF6D00")) .nil)))))) := by
  exact (c5_scp_usr_clearance_gate (pstr "SCP") .scpT rfl 999 999
    ⟨4, pstr "Level 4 - Secret"⟩ (.scp 999 ⟨4, pstr "Level 4 - Secret"⟩)
    (Or.inl ⟨rfl, rfl⟩) wUser wIp wStore wFs wClearName3 rfl rfl
    ⟨by decide, by decide⟩ ⟨by decide, by decide⟩ rfl rfl).2 (by decide)

/-- C6: for an existing SITE record, `access` grants if and only if the
requester's clearance is at least 3 or their `site_id` equals the site's id,
and otherwise returns ACCESS_REDACTED against the clearance-3 threshold. -/
theorem c6_site_gate
    (fType : PyStr) (hft : lookupFType fType = some .siteT)
    (fId sId : Int)
    (user : UserM) (userIp : PyStr) (store : Store) (fs : FileStore)
    (clearName3 : PyStr)
    (hrec : store .siteT fId = some (.site sId))
    (hip : validate_ip userIp = .ok ())
    (hC : 1 ≤ user.clearance_lvl.id ∧ user.clearance_lvl.id ≤ 6)
    (hn1 : validate_str user.clearance_lvl.name = .ok ())
    (hn3 : validate_str clearName3 = .ok ()) :
    (3 ≤ user.clearance_lvl.id ∨ user.site_id = sId →
        access fType fId user userIp store fs clearName3
          = .ok (mkMsg (pstr "access_granted") (grantedData fs (.site sId))))
    ∧ (user.clearance_lvl.id < 3 ∧ user.site_id ≠ sId →
        access fType fId user userIp store fs clearName3
          = .ok (mkMsg (pstr "access_redacted")
              (.jobj (.cons (pstr "user_clear") (.jstr user.clearance_lvl.name)
                (.cons (pstr "user_hex")
                    (.jstr (CLEAR_LVL.getD user.clearance_lvl.id.toNat []))
                  (.cons (pstr "needed_clear") (.jstr clearName3)
                    (.cons (pstr "needed_hex") (.jstr (pstr "#FFD300")) .nil))))))) := by
  obtain ⟨hC1, hC6⟩ := hC
  have hpx1 : pyIndex CLEAR_LVL user.clearance_lvl.id
      = .ok (CLEAR_LVL.getD user.clearance_lvl.id.toNat []) :=
    pyIndex_ok _ _ (by omega)
      (by rw [show (CLEAR_LVL.length : Int) = 7 from rfl]; omega)
  have hpx2 : pyIndex CLEAR_LVL 3 = .ok (pstr "#FFD300") := rfl
  simp only [access, validate_int_ff, hip, hft, hrec, Bind.bind, Except.bind]
  constructor
  · intro hor
    rw [if_neg (show ¬ (user.clearance_lvl.id < 3 ∧ user.site_id ≠ sId) from ?_)]
    · exact granted_builds fs _
    · rcases hor with h | h
      · exact fun hand => absurd h (by omega)
      · exact fun hand => hand.2 h
  · intro hand
    rw [if_pos hand]
    simp only [hpx1, hpx2, Bind.bind, Except.bind]
    exact redacted_builds _ _ _ _ hn1
      (validate_hex_CLEAR _ (by omega) (by omega)) hn3 rfl

/-- C6 witness: clearance-2 user assigned to site 19 requesting site 19 —
granted by the site-membership disjunct. -/
theorem c6_site_gate_witness :
    access (pstr "SITE") 19 wUser wIp wStore wFs wClearName3
      = .ok (mkMsg (pstr "access_granted") (grantedData wFs (.site 19))) := by
  exact (c6_site_gate (pstr "SITE") rfl 19 19 wUser wIp wStore wFs wClearName3
    rfl rfl ⟨by decide, by decide⟩ rfl rfl).1 (Or.inr rfl)

/-- C7 counterexample: the claim fails for non-positive ids.  `access` itself
validates `f_id` with both positivity checks off, but `gen_access_expunged`
calls `validate_int('f_id', f_id)` with the defaults (`positive=True`), so an
absent record with `f_id = 0` raises `ValueError` instead of returning
ACCESS_EXPUNGED. -/
theorem c7_expunged_counterexample :
    wStore .scpT 0 = none
      ∧ access (pstr "SCP") 0 wUser wIp wStore wFs wClearName3
          = .error (.valueError "positive int") := ⟨rfl, rfl⟩

/-- C7 (amended): for every valid file type and every positive record id the
store holds no record for, `access` returns an ACCESS_EXPUNGED message
carrying that `f_type` and `f_id`, and does not raise. -/
theorem c7_expunged_on_absent (fType : PyStr) (tag : FTag)
    (hft : lookupFType fType = some tag)
    (fId : Int) (hpos : 0 < fId)
    (user : UserM) (userIp : PyStr) (store : Store) (fs : FileStore)
    (clearName3 : PyStr)
    (hip : validate_ip userIp = .ok ())
    (hrec : store tag fId = none) :
    access fType fId user userIp store fs clearName3
      = .ok (mkMsg (pstr "access_expunged")
          (.jobj (.cons (pstr "f_type") (.jstr fType)
            (.cons (pstr "f_id") (.jint fId) .nil)))) := by
  have hstr : validate_str fType = .ok () := by
    simp only [lookupFType] at hft
    split_ifs at hft <;> first | (subst_vars; rfl) | simp at hft
  have h1 : ¬ (true = true ∧ fId ≤ 0) := fun h => absurd h.2 (by omega)
  have h2 : ¬ (true = true ∧ fId < 0) := fun h => absurd h.2 (by omega)
  have hvi : validate_int fId true true = .ok () := by
    unfold validate_int
    rw [if_neg h1, if_neg h2]
  simp only [access, validate_int_ff, hip, hft, hrec, Bind.bind, Except.bind]
  simp only [gen_access_expunged, hstr, hvi, Bind.bind, Except.bind]
  rfl

/-- C7 witness: MTF 8 is absent from the store; the request yields the
expunged message. -/
theorem c7_expunged_on_absent_witness :
    access (pstr "MTF") 8 wUser wIp wStore wFs wClearName3
      = .ok (mkMsg (pstr "access_expunged")
          (.jobj (.cons (pstr "f_type") (.jstr (pstr "MTF"))
            (.cons (pstr "f_id") (.jint 8) .nil)))) :=
  c7_expunged_on_absent (pstr "MTF") .mtfT rfl 8 (by decide)
    wUser wIp wStore wFs wClearName3 rfl rfl

end SCiPnet

namespace SCiPnet

/-! ## Scoped-timeout and receive-loop claims -/

/-- C9 counterexample: the restoration is to the constant `DEF_TIMEOUT`, not
to the pre-override value.  On a socket whose timeout was 30 before the
probe, a successful `test_send` exits with the timeout at 60, not 30. -/
theorem c9_timeout_restore_counterexample :
    (test_send ⟨true, ACK_MSG⟩ ⟨30⟩).2.timeout = 60 ∧ (60 : Nat) ≠ 30 :=
  ⟨rfl, by decide⟩

/-- C9 (amended): on exit of the scoped override both probe operations set the
timeout to the default `DEF_TIMEOUT` — on success and failure alike, for any
network behaviour — which equals the pre-override value exactly for sockets
that still carry the `gen_socket_conn` default. -/
theorem c9_timeout_restored_to_default (o : NetOracle) (s : Sock) :
    (test_send o s).2.timeout = DEF_TIMEOUT
      ∧ (test_recv o s).2.timeout = DEF_TIMEOUT
      ∧ gen_socket_conn.timeout = DEF_TIMEOUT :=
  ⟨rfl, rfl, rfl⟩

/-- Loop invariants of the `recv` accumulation loop, by induction on the
fuel: with the chunk budget accounted against the remaining fuel the loop
never exhausts its fuel, performs at most `msg_size / RCV_S + 2` reads in
total, requests exactly `min(RCV_S, remaining)` bytes per read with
`remaining` positive, completes only with exactly `msg_size` bytes, and
raises the chunk-guard error precisely at `msg_size / RCV_S + 2` consumed
chunks. -/
theorem recvLoop_inv (msgSize : Nat) (delivery : Nat → List Nat) :
    ∀ (fuel callIdx chunkCount : Nat) (data : List Nat),
      chunkCount ≤ msgSize / RCV_S + 2 →
      msgSize / RCV_S + 3 ≤ fuel + chunkCount →
      data.length ≤ msgSize →
      ((recvLoop fuel msgSize delivery callIdx chunkCount data).1 ≠ .fuelOut
        ∧ (recvLoop fuel msgSize delivery callIdx chunkCount data).2.length + chunkCount
            ≤ msgSize / RCV_S + 2
        ∧ (∀ p ∈ (recvLoop fuel msgSize delivery callIdx chunkCount data).2,
            p.1 = min RCV_S p.2 ∧ 0 < p.2 ∧ p.2 ≤ msgSize)
        ∧ (∀ d, (recvLoop fuel msgSize delivery callIdx chunkCount data).1 = .done d →
            d.length = msgSize)
        ∧ ((recvLoop fuel msgSize delivery callIdx chunkCount data).1 = .errChunks →
            (recvLoop fuel msgSize delivery callIdx chunkCount data).2.length + chunkCount
              = msgSize / RCV_S + 2)) := by
  intro fuel
  induction fuel with
  | zero =>
      intro callIdx chunkCount data hcc hfc hdl
      exact absurd hfc (by omega)
  | succ f ih =>
      intro callIdx chunkCount data hcc hfc hdl
      by_cases hlt : data.length < msgSize
      · by_cases hgd : chunkCount > msgSize / RCV_S + 1
        · have he : recvLoop (f + 1) msgSize delivery callIdx chunkCount data
              = (.errChunks, []) := by
            simp only [recvLoop, if_pos hlt, if_pos hgd]
          rw [he]
          refine ⟨by simp, by simp; omega, by simp, by simp, fun _ => by simp; omega⟩
        · by_cases hb : ((delivery callIdx).take
              (min RCV_S (msgSize - data.length))).isEmpty
          · have he : recvLoop (f + 1) msgSize delivery callIdx chunkCount data
                = (.errAborted,
                   [(min RCV_S (msgSize - data.length), msgSize - data.length)]) := by
              simp only [recvLoop, if_pos hlt, if_neg hgd, if_pos hb]
            rw [he]
            refine ⟨by simp, by simp; omega, ?_, by simp, by simp⟩
            intro p hp
            simp only [List.mem_singleton] at hp
            subst hp
            refine ⟨rfl, by omega, by omega⟩
          · have hblen : ((delivery callIdx).take
                (min RCV_S (msgSize - data.length))).length
                  ≤ msgSize - data.length := by
              have := List.length_take_le (min RCV_S (msgSize - data.length))
                (delivery callIdx)
              omega
            have he : recvLoop (f + 1) msgSize delivery callIdx chunkCount data
                = ((recvLoop f msgSize delivery (callIdx + 1) (chunkCount + 1)
                      (data ++ (delivery callIdx).take
                        (min RCV_S (msgSize - data.length)))).1,
                   (min RCV_S (msgSize - data.length), msgSize - data.length)
                     :: (recvLoop f msgSize delivery (callIdx + 1) (chunkCount + 1)
                          (data ++ (delivery callIdx).take
                            (min RCV_S (msgSize - data.length)))).2) := by
              simp only [recvLoop, if_pos hlt, if_neg hgd, if_neg hb]
            have hIH := ih (callIdx + 1) (chunkCount + 1)
              (data ++ (delivery callIdx).take (min RCV_S (msgSize - data.length)))
              (by omega) (by omega) (by simp only [List.length_append]; omega)
            rw [he]
            obtain ⟨i1, i2, i3, i4, i5⟩ := hIH
            refine ⟨i1, by simp only [List.length_cons]; omega, ?_, i4, ?_⟩
            · intro p hp
              rcases List.mem_cons.mp hp with hp | hp
              · subst hp
                exact ⟨rfl, by omega, by omega⟩
              · exact i3 p hp
            · intro hE
              have := i5 hE
              simp only [List.length_cons]
              omega
      · have he : recvLoop (f + 1) msgSize delivery callIdx chunkCount data
            = (.done data, []) := by
          simp only [recvLoop, if_neg hlt]
        rw [he]
        refine ⟨by simp, by simp; omega, by simp, ?_, by simp⟩
        intro d hd
        simp only [LoopOut.done.injEq] at hd
        subst hd
        omega

/-- C10: with the fuel `recv` supplies, the payload loop started as `recv`
starts it never exhausts its fuel — every run ends in completion, the
chunk-guard error, or the aborted-connection error; it performs at most
`msg_size / RCV_S + 2` reads; each read requests exactly
`min(RCV_S, remaining)` bytes of the positive remainder (so at most 4 KiB);
completion returns exactly `msg_size` bytes; and the chunk-guard error fires
exactly when `msg_size / RCV_S + 2` chunks have been consumed without
reaching the declared length — one more than the source's `max_chunks`
bound of `msg_size // RCV_S + 1`. -/
theorem c10_recv_loop_bounded (msgSize : Nat) (delivery : Nat → List Nat) :
    (recvLoop (msgSize / RCV_S + 3) msgSize delivery 1 0 []).1 ≠ .fuelOut
      ∧ (recvLoop (msgSize / RCV_S + 3) msgSize delivery 1 0 []).2.length
          ≤ msgSize / RCV_S + 2
      ∧ (∀ p ∈ (recvLoop (msgSize / RCV_S + 3) msgSize delivery 1 0 []).2,
          p.1 = min RCV_S p.2 ∧ p.1 ≤ RCV_S ∧ 0 < p.2)
      ∧ (∀ d, (recvLoop (msgSize / RCV_S + 3) msgSize delivery 1 0 []).1 = .done d →
          d.length = msgSize)
      ∧ ((recvLoop (msgSize / RCV_S + 3) msgSize delivery 1 0 []).1 = .errChunks →
          (recvLoop (msgSize / RCV_S + 3) msgSize delivery 1 0 []).2.length
            = msgSize / RCV_S + 2) := by
  have h := recvLoop_inv msgSize delivery (msgSize / RCV_S + 3) 1 0 []
    (Nat.zero_le _) (by simp) (by simp)
  obtain ⟨h1, h2, h3, h4, h5⟩ := h
  refine ⟨h1, by omega, ?_, h4, fun hE => by have := h5 hE; omega⟩
  intro p hp
  obtain ⟨e1, e2, _⟩ := h3 p hp
  exact ⟨e1, by rw [e1]; exact Nat.min_le_left _ _, e2⟩

end SCiPnet
